import Mathlib

/-!
Verification of the datlex data-reconciliation and bulk-import engine.

This file gives a shallow embedding, in Lean 4, of the spreadsheet-import,
entity-resolution, reconciliation and bulk-persistence logic of the
repository (source files `src/components/AssetManagement.tsx`,
`src/components/HistoryTable.tsx`, `src/services/supabaseService.ts`), and
proves or refutes the specification claims about it.

Modelling conventions:
* JavaScript strings are Lean `String`s; the character-level operations used
  by the source (`toLowerCase`, `toUpperCase`, `trim`, `includes`, the
  regexes `/[A-Z]/`, `/([-_][a-z])/`, `/[\s-_.]/`, `/^\d+$/`, `/\D/`) are
  embedded character by character over `String.toList`.  The source applies
  case mappings only to characters matched by ASCII regex classes, so the
  ASCII-only case maps used here are exact.
* `undefined` cells are modelled as `none : Option String`
  (and `String(undefined) = "undefined"` is embedded faithfully).
* `Number(x)` is modelled as `Option Int` (`none` = `NaN`) for integer-form
  and non-numeric cell contents, the only contents the import paths
  distinguish (`Number(v) || 0` collapses `NaN` and `0`).
* Nondeterministic sources (`Date.now()`, `Math.random()`) are passed in as
  explicit oracle functions indexed by the row / call at which the source
  draws them.
* The remote store (`supabase.from(t).upsert(...)`) is an oracle mapping the
  index of the network call to either the returned row count or an error
  message; side effects (network calls, `setTimeout` sleeps, progress
  callbacks) are accumulated in an explicit trace.
-/

/-! ## Character and string primitives (JS semantics, ASCII) -/

/-- `/[A-Z]/` — ASCII upper-case letter test, as used by `toSnakeCase`. -/
def isUpperA (c : Char) : Bool := 65 ≤ c.toNat && c.toNat ≤ 90

/-- `/[a-z]/` — ASCII lower-case letter test, as used by `toCamelCase`. -/
def isLowerA (c : Char) : Bool := 97 ≤ c.toNat && c.toNat ≤ 122

/-- ASCII letter (either case). -/
def isAlphaA (c : Char) : Bool := isUpperA c || isLowerA c

/-- `String.prototype.toLowerCase` on an ASCII upper-case letter. -/
def toLowerA (c : Char) : Char := Char.ofNat (c.toNat + 32)

/-- `String.prototype.toUpperCase` on an ASCII lower-case letter. -/
def toUpperA (c : Char) : Char := Char.ofNat (c.toNat - 32)

/-- `toLowerCase` over a whole string (ASCII range; identity elsewhere). -/
def lowerChar (c : Char) : Char := if isUpperA c then toLowerA c else c

/-- `str.toLowerCase()` (ASCII fragment). -/
def jsLower (s : String) : String := ⟨s.toList.map lowerChar⟩

/-- JS whitespace test for `trim` (ASCII fragment). -/
def isWsA (c : Char) : Bool := c = ' ' || c = '\t' || c = '\n' || c = '\r'

/-- `str.trim()`. -/
def jsTrim (s : String) : String :=
  ⟨((s.toList.dropWhile isWsA).reverse.dropWhile isWsA).reverse⟩

/-- `needle` is a prefix of `hay` (char lists). -/
def listIsPrefixOf : List Char → List Char → Bool
  | [], _ => true
  | _ :: _, [] => false
  | a :: as, b :: bs => a = b && listIsPrefixOf as bs

/-- substring containment on char lists (`String.prototype.includes`). -/
def listContainsSub (hay needle : List Char) : Bool :=
  if listIsPrefixOf needle hay then true
  else match hay with
    | [] => false
    | _ :: t => listContainsSub t needle

/-- `hay.includes(needle)`. -/
def sContains (hay needle : String) : Bool :=
  listContainsSub hay.toList needle.toList

/-- `String(v)` for a possibly-`undefined` value. -/
def jsString : Option String → String
  | none => "undefined"
  | some s => s

/-- JS string truthiness: a string is truthy iff non-empty. -/
def sTruthy (s : String) : Bool := s ≠ ""

/-- Truthiness of a possibly-`undefined` string. -/
def oTruthy : Option String → Bool
  | none => false
  | some s => sTruthy s

/-- `a || b` for strings (JS logical-or with string operands). -/
def jsOr (a b : String) : String := if a = "" then b else a

/-- `a || b` where `a` may be `undefined`/`null`. -/
def jsOrO (a : Option String) (b : String) : String :=
  match a with
  | none => b
  | some s => if s = "" then b else s

/-- digit test `/\d/`. -/
def isDigitA (c : Char) : Bool := 48 ≤ c.toNat && c.toNat ≤ 57

/-- `str.replace(/\D/g, '')` — keep only digits. -/
def stripNonDigits (s : String) : String := ⟨s.toList.filter isDigitA⟩

/-- `/^\d+$/.test(s)`. -/
def allDigits (s : String) : Bool := s ≠ "" && s.toList.all isDigitA

/-- digits of a char list as a number (used by the `Number(_)` model). -/
def digitsVal : List Char → Nat → Nat
  | [], acc => acc
  | c :: cs, acc => digitsVal cs (acc * 10 + (c.toNat - 48))

/-- `Number(s)` on integer-form / non-numeric strings: trims, `"" ↦ 0`,
optional sign followed by digits, anything else is `NaN` (`none`). -/
def jsNumber (s : String) : Option Int :=
  match (jsTrim s).toList with
  | [] => some 0
  | '-' :: rest =>
      if rest ≠ [] && rest.all isDigitA then some (-(digitsVal rest 0 : Int)) else none
  | l =>
      if l.all isDigitA then some (digitsVal l 0 : Int) else none

/-- `Number(v)` for a possibly-`undefined` value (`Number(undefined) = NaN`). -/
def jsNumberO : Option String → Option Int
  | none => none
  | some s => jsNumber s

/-- `n || 0` for a possibly-`NaN` number. -/
def numOr0 : Option Int → Int
  | none => 0
  | some n => n

/-! ## `supabaseService.ts`: key-casing translation and record processing -/

/-- `toSnakeCase`: `str.replace(/[A-Z]/g, letter => '_' + letter.toLowerCase())`,
character by character. -/
def snakeChars : List Char → List Char
  | [] => []
  | c :: cs => if isUpperA c then '_' :: toLowerA c :: snakeChars cs
               else c :: snakeChars cs

/-- `toSnakeCase` from `supabaseService.ts`. -/
def toSnakeCase (s : String) : String := ⟨snakeChars s.toList⟩

/-- `toCamelCase`: `str.replace(/([-_][a-z])/g, g => g.toUpperCase()
.replace('-','').replace('_',''))` — a left-to-right scan replacing each
`-`/`_` followed by an ASCII lower-case letter with that letter upper-cased. -/
def camelChars : List Char → List Char
  | [] => []
  | [c] => [c]
  | c :: d :: ds =>
    if (c = '-' || c = '_') && isLowerA d then toUpperA d :: camelChars ds
    else c :: camelChars (d :: ds)

/-- `toCamelCase` from `supabaseService.ts`. -/
def toCamelCase (s : String) : String := ⟨camelChars s.toList⟩

/-- `xs.join(',')`. -/
def joinComma : List String → String
  | [] => ""
  | [x] => x
  | x :: xs => x ++ "," ++ joinComma xs

/-- helper for `s.split(',')`. -/
def splitCommaAux : List Char → List Char → List String
  | [], acc => [⟨acc.reverse⟩]
  | c :: cs, acc =>
      if c = ',' then (⟨acc.reverse⟩ : String) :: splitCommaAux cs []
      else splitCommaAux cs (c :: acc)

/-- `s.split(',')` (for non-empty `s`; the source guards the empty case). -/
def splitComma (s : String) : List String := splitCommaAux s.toList []

/-- Runtime value of a record field crossing the Supabase boundary.
`vnull` models both `null` and `undefined` (the boundary code treats them
identically). -/
inductive Val where
  | vstr : String → Val
  | vnum : Int → Val
  | vnull : Val
  | varr : List String → Val
  | vbool : Bool → Val
deriving DecidableEq, Repr

/-- A JS record at the boundary: an ordered association list, as `for (const
key in record)` iterates own enumerable string keys in insertion order. -/
abbrev SRec := List (String × Val)

/-- `val === null || val === undefined || val === ''`. -/
def isEmptyVal : Val → Bool
  | .vnull => true
  | .vstr s => s = ""
  | _ => false

/-- JS falsiness of a (possibly absent) field value, for `!processed['name']`. -/
def valFalsy : Option Val → Bool
  | none => true
  | some .vnull => true
  | some (.vstr s) => s = ""
  | some (.vnum n) => n = 0
  | some (.vbool b) => !b
  | some (.varr _) => false

/-- `obj[k] = v` on an assoc-list record: replace the first binding of `k`,
else append. -/
def objSet (r : SRec) (k : String) (v : Val) : SRec :=
  match r with
  | [] => [(k, v)]
  | (k', v') :: t => if k' = k then (k, v) :: t else (k', v') :: objSet t k v

/-- The list-valued fields serialized to comma-joined strings at the
boundary. -/
def listFieldKeys : List String :=
  ["allowedLocationIds", "allowedSectorIds", "allowedDivisionIds", "allowedMenus"]

/-- The body of `processRecordToSupabase`'s `for..in` loop: snake-case the
key, comma-join declared list fields, substitute defaults for empty
`name`/`status`/`category` columns. -/
def toSupabaseEntry (kv : String × Val) : String × Val :=
  let colName := toSnakeCase kv.1
  let v1 := match kv.2 with
    | .varr xs => if kv.1 ∈ listFieldKeys then .vstr (joinComma xs) else kv.2
    | v => v
  let v2 := if isEmptyVal v1 then
              if colName = "name" then .vstr "Unnamed"
              else if colName = "status" then .vstr "Active"
              else if colName = "category" then .vstr "General"
              else v1
            else v1
  (colName, v2)

/-- `processRecordToSupabase` from `supabaseService.ts`.  The `for..in` loop
writing `processed[colName] = val` is modelled as a map over the entries
(exact whenever the snake-cased keys are pairwise distinct, which holds for
the letter-only camelCase keys considered in the theorems). -/
def processRecordToSupabase (record : SRec) (tableName : String) : SRec :=
  let processed := record.map toSupabaseEntry
  let processed := if tableName = "items" && valFalsy (processed.lookup "name")
                   then objSet processed "name" (.vstr "Unnamed Item") else processed
  if tableName = "machines" && valFalsy (processed.lookup "status")
  then objSet processed "status" (.vstr "Working") else processed

/-- The body of `processRecordFromSupabase`'s loop: camel-case the key and
split declared list fields on commas. -/
def fromSupabaseEntry (kv : String × Val) : String × Val :=
  let camelKey := toCamelCase kv.1
  match kv.2 with
  | .vstr s =>
      if camelKey ∈ listFieldKeys then
        (camelKey, if s = "" then .varr [] else .varr (splitComma s))
      else (camelKey, .vstr s)
  | v => (camelKey, v)

/-- `processRecordFromSupabase` from `supabaseService.ts`. -/
def processRecordFromSupabase (record : SRec) : SRec :=
  record.map fromSupabaseEntry

/-! ## Round-trip lemmas for the key-casing translation -/

/-- decidable form of "the value is a non-empty string". -/
def isNonemptyStr : Val → Bool
  | .vstr s => s ≠ ""
  | _ => false

/-- decidable form of "the value is a non-empty array of non-empty,
comma-free strings". -/
def isGoodListVal : Val → Bool
  | .varr xs => xs ≠ [] && xs.all (fun x => x ≠ "" && ',' ∉ x.toList)
  | _ => false

/-- `tableMap` from `supabaseService.ts`. -/
def tableMap : List (String × String) :=
  [("items", "items"), ("machines", "machines"), ("locations", "locations"),
   ("sectors", "sectors"), ("divisions", "divisions"),
   ("plans", "maintenance_plans"), ("users", "users"), ("history", "issues"),
   ("breakdowns", "breakdowns"), ("bomRecords", "bom"),
   ("agriOrders", "agri_orders"), ("irrigationLogs", "irrigation_logs"),
   ("forecastPeriods", "forecast_periods"),
   ("forecastRecords", "forecast_records"), ("tasks", "maintenance_tasks"),
   ("schedules", "maintenance_schedules"),
   ("workOrders", "maintenance_work_orders"),
   ("assetTransfers", "asset_transfers"),
   ("transferHistory", "machine_transfer_history"),
   ("warrantyRecords", "warranty_management"),
   ("warrantyReceivings", "warranty_receiving_data"),
   ("orgStructures", "org_structure"), ("failureTypes", "failure_types"),
   ("issuePlanPeriods", "issue_plan_periods"),
   ("issuePlanEntries", "issue_plan_entries")]

/-- The object returned by `bulkUpsertSupabaseRecords` (`count` and
`message` are optional fields of the returned literal). -/
structure BulkResult where
  status : String
  count : Option Nat := none
  message : Option String := none
deriving DecidableEq, Repr

/-- Mutable state of one `bulkUpsertSupabaseRecords` run, together with the
observable trace: `attempts` records each issued upsert call as
`(batchNum, processed chunk)`, `sleeps` each `setTimeout` delay in ms, and
`progress` each `onProgress(current, total, batchNum, totalBatches)` call. -/
structure BulkState where
  callIdx : Nat := 0
  successCount : Nat := 0
  failedBatches : List (Nat × String) := []
  attempts : List (Nat × List SRec) := []
  sleeps : List Nat := []
  progress : List (Nat × Nat × Nat × Nat) := []
deriving DecidableEq, Repr

/-- Result plus trace of a `bulkUpsertSupabaseRecords` run. -/
structure BulkOutcome where
  result : BulkResult
  trace : BulkState
deriving DecidableEq, Repr

/-- The per-batch retry loop of `bulkUpsertSupabaseRecords`
(`while (retryCount < MAX_RETRIES && !batchSuccess)`), with
`fuel = MAX_RETRIES - retryCount` as the structural measure.  The remote
oracle maps the index of the upsert call to the length of the returned
`data` or to the thrown error message. -/
def tryBatch (remote : Nat → Except String Nat) (batchNum : Nat)
    (processed : List SRec) (total totalBatches : Nat) :
    Nat → Nat → BulkState → BulkState
  | 0, _, st => st
  | fuel + 1, retry, st =>
    let call := st.callIdx
    let st := { st with attempts := st.attempts ++ [(batchNum, processed)],
                        callIdx := call + 1 }
    match remote call with
    | .ok n =>
        let st := { st with successCount := st.successCount + n }
        { st with progress :=
            st.progress ++ [(st.successCount, total, batchNum, totalBatches)] }
    | .error m =>
        let retry := retry + 1
        if fuel = 0 then
          { st with failedBatches := st.failedBatches ++ [(batchNum, m)] }
        else
          let st := { st with sleeps := st.sleeps ++ [1000 * retry] }
          tryBatch remote batchNum processed total totalBatches fuel retry st

/-- The batching loop of `bulkUpsertSupabaseRecords`
(`for (let i = 0; i < dataArray.length; i += BATCH_SIZE)`), with the number
of remaining batches as fuel (the caller passes `totalBatches`, which is
exactly the number of iterations of the source loop). -/
def bulkLoop (remote : Nat → Except String Nat) (supabaseTable : String)
    (dataArray : List SRec) (totalBatches : Nat) :
    Nat → Nat → BulkState → BulkState
  | 0, _, st => st
  | fuel + 1, i, st =>
    if i < dataArray.length then
      let chunk := (dataArray.drop i).take 100
      let processed := chunk.map (processRecordToSupabase · supabaseTable)
      let batchNum := i / 100 + 1
      let st := { st with progress :=
          st.progress ++ [(st.successCount, dataArray.length, batchNum, totalBatches)] }
      let st := tryBatch remote batchNum processed dataArray.length totalBatches 3 0 st
      let st := if i + 100 < dataArray.length
                then { st with sleeps := st.sleeps ++ [200] } else st
      bulkLoop remote supabaseTable dataArray totalBatches fuel (i + 100) st
    else st

/-- `bulkUpsertSupabaseRecords` from `supabaseService.ts`.  `dataArray =
none` models a `null`/`undefined` argument (the `!dataArray` guard).  The
outer `try` of the source can only catch exceptions re-thrown from the
per-batch `catch`, which swallows them, so it is unreachable and not
modelled. -/
def bulkUpsertSupabaseRecords (remote : Nat → Except String Nat)
    (frontendTable : String) (dataArray : Option (List SRec)) : BulkOutcome :=
  match tableMap.lookup frontendTable with
  | none => { result := { status := "error", message := some "Unknown table" },
              trace := {} }
  | some supabaseTable =>
    match dataArray with
    | none => { result := { status := "success", count := some 0 }, trace := {} }
    | some arr =>
      if arr.length = 0 then
        { result := { status := "success", count := some 0 }, trace := {} }
      else
        let totalBatches := (arr.length + 100 - 1) / 100
        let st := bulkLoop remote supabaseTable arr totalBatches totalBatches 0 {}
        let st := { st with progress :=
            st.progress ++ [(st.successCount, arr.length, totalBatches, totalBatches)] }
        let msg := toString st.successCount ++ "/" ++ toString arr.length
          ++ " uploaded. " ++ toString st.failedBatches.length ++ " batches failed."
        if st.failedBatches.length ≠ 0 then
          { result := { status := "partial", count := some st.successCount,
                        message := some msg },
            trace := st }
        else
          { result := { status := "success", count := some st.successCount },
            trace := st }

/-! ## C2 / C10: behavior of the bulk persistence gateway -/

/-- Keyword list of the header scan in `HistoryTable.tsx` (line 180). -/
def htKeywords : List String :=
  ["id", "date", "qty", "item", "machine", "unit", "status"]

/-- Keyword list of the header scan in `AssetManagement.tsx` (line 164). -/
def amKeywords : List String :=
  ["id", "name", "qty", "machine", "item", "part", "serial", "brand", "model"]

/-- The keyword set the specification ascribes to "the Header Detector"
(§4.1): the union of the two per-file sets. -/
def specKeywords : List String :=
  ["id", "date", "qty", "item", "machine", "unit", "status", "name", "part",
   "serial", "brand", "model"]

/-- `String(cell).toLowerCase().trim()` — cell normalization of the header
scan. -/
def normCell (c : Option String) : String := jsTrim (jsLower (jsString c))

/-- number of cells of a row containing some keyword
(`row.filter(cell => keys.some(key => cell.includes(key))).length`). -/
def rowHits (keys : List String) (row : List (Option String)) : Nat :=
  ((row.map normCell).filter (fun cell => keys.any (fun k => sContains cell k))).length

/-- The header-scan loop
(`for (let r = 0; r < Math.min(rows.length, 10); r++) … if (hits.length >= 2)
{ headerRowIndex = r; break; }` with initial value 0): fuel counts the
remaining candidate rows, `r` is the current index. -/
def headerScan (keys : List String) : Nat → Nat → List (List (Option String)) → Nat
  | _, _, [] => 0
  | 0, _, _ => 0
  | fuel + 1, r, row :: rest =>
      if 2 ≤ rowHits keys row then r else headerScan keys fuel (r + 1) rest

/-- Header detection as implemented, parameterized by the keyword list. -/
def headerDetect (keys : List String) (rows : List (List (Option String))) : Nat :=
  headerScan keys (min rows.length 10) 0 rows

/-- The detector instance of `HistoryTable.tsx`. -/
def htHeaderDetect : List (List (Option String)) → Nat := headerDetect htKeywords

/-- The detector instance of `AssetManagement.tsx`. -/
def amHeaderDetect : List (List (Option String)) → Nat := headerDetect amKeywords

/-- Header detection as the specification words it (§4.1, §8): lower-case
and trim every cell of each of the first 10 rows, count cells containing any
keyword, select the first row with at least 2 hits, fall back to row 0. -/
def specHeaderDetect (keys : List String) (rows : List (List (Option String))) : Nat :=
  ((rows.take 10).findIdx? (fun row => 2 ≤ rowHits keys row)).getD 0

/-! ## C6: the header detector -/

/-- A named master entity (location / division / sector row). -/
structure NamedEntity where
  id : String
  name : String
deriving DecidableEq, Repr

/-- A machine master record (fields read by the import paths). -/
structure Machine where
  id : String
  category : Option String := none
  chassisNo : Option String := none
  status : Option String := none
  machineLocalNo : Option String := none
deriving DecidableEq, Repr

/-- An item master record (fields read by the import paths).
`stockQuantity`: outer `none` = field absent, `some none` = `NaN`. -/
structure Item where
  id : String
  name : Option String := none
  fullName : Option String := none
  partNumber : Option String := none
  secondId : Option String := none
  thirdId : Option String := none
  stockQuantity : Option (Option Int) := none
  unit : Option String := none
  category : Option String := none
deriving DecidableEq, Repr

/-! ## `HistoryTable.tsx`: entity resolvers -/

/-- `resolveId` from `HistoryTable.tsx` (file-upload handler): exact id
match, else case-insensitive name match, else the trimmed input itself. -/
def htResolveId (list : List NamedEntity) (val : String) : String :=
  if val = "" then ""
  else
    let trimmed := jsTrim val
    match list.find? (fun i => i.id = trimmed) with
    | some i => i.id
    | none =>
      match list.find? (fun i => jsLower i.name = jsLower trimmed) with
      | some i => i.id
      | none => trimmed

/-- `resolveMachineId` from `HistoryTable.tsx`: exact id match, else
case-insensitive `category` match, else the sentinel `"Unknown"`. -/
def resolveMachineId (machines : List Machine) (val : String) : String :=
  if val = "" then "Unknown"
  else
    let trimmed := jsTrim val
    match machines.find? (fun m => m.id = trimmed) with
    | some m => m.id
    | none =>
      match machines.find? (fun m =>
          jsLower (jsOrO m.category "") = jsLower trimmed) with
      | some m => m.id
      | none => "Unknown"

/-- `resolveItemId` from `HistoryTable.tsx`: exact id match, else
case-insensitive `name`/`fullName` match, else `''`.  (This path never
consults `partNumber`.) -/
def htResolveItemId (items : List Item) (val : String) : String :=
  if val = "" then ""
  else
    let trimmed := jsTrim val
    match items.find? (fun i => i.id = trimmed) with
    | some i => i.id
    | none =>
      match items.find? (fun i =>
          jsLower (jsOrO i.name "") = jsLower trimmed
          || jsLower (jsOrO i.fullName "") = jsLower trimmed) with
      | some i => i.id
      | none => ""

/-! ## `HistoryTable.tsx`: issue-request import -/

/-- `k.toLowerCase().replace(/[\s-_.]/g, '')`: in the character class the
hyphen after `\s` is literal, so whitespace, `-`, `_` and `.` are removed. -/
def stripSeps (s : String) : String :=
  ⟨s.toList.filter (fun c => !(isWsA c || c = '-' || c = '_' || c = '.'))⟩

/-- The normalized field object built per issue-request row.
`quantity`: outer `none` = unassigned, `some none` = `NaN`. -/
structure ReqObj where
  id : Option String := none
  timestamp : Option String := none
  locationId : Option String := none
  itemId : Option String := none
  itemName : Option String := none
  quantity : Option (Option Int) := none
  unit : Option String := none
  machineName : Option String := none
  machineId : Option String := none
  status : Option String := none
  maintenancePlan : Option String := none
deriving DecidableEq, Repr

/-- One alias-table step of the issue-request normalization
(the `Object.keys(row).forEach` body), with `new Date(val).toISOString()`
supplied as the oracle `dateISO`. -/
def reqStep (dateISO : Option String → String) (obj : ReqObj)
    (kv : String × Option String) : ReqObj :=
  let header := stripSeps (jsLower kv.1)
  let val := kv.2
  if header = "id" || header = "requestid" then
    { obj with id := some (jsString val) }
  else if header = "date" || header = "timestamp" then
    { obj with timestamp := some (dateISO val) }
  else if header = "location" || header = "locationid" || header = "warehouse" then
    { obj with locationId := some (jsString val) }
  else if header = "itemid" || header = "itemnumber" || header = "itemcode"
      || header = "partnumber" then
    { obj with itemId := some (jsString val) }
  else if header = "itemname" || header = "description" then
    { obj with itemName := some (jsString val) }
  else if header = "qty" || header = "quantity" || header = "count" then
    { obj with quantity := some (jsNumberO val) }
  else if header = "unit" then { obj with unit := some (jsString val) }
  else if header = "machine" || header = "machinename" || header = "equipment" then
    { obj with machineName := some (jsString val) }
  else if header = "machineid" || header = "assetid" then
    { obj with machineId := some (jsString val) }
  else if header = "status" then { obj with status := some (jsString val) }
  else if header = "plan" || header = "maintplan" || header = "maintenanceplan" then
    { obj with maintenancePlan := some (jsString val) }
  else obj

/-- A persisted issue-request record, as built by the import. -/
structure HistRec where
  id : String
  timestamp : String
  locationId : String
  itemId : String
  itemName : String
  quantity : Int
  unit : String
  machineId : String
  machineName : String
  status : String
  maintenancePlan : String
deriving DecidableEq, Repr

/-- `v || 0` for a possibly-absent, possibly-`NaN` number. -/
def numOr0O : Option (Option Int) → Int
  | some (some n) => n
  | _ => 0

/-- Environment of the `HistoryTable.tsx` file import: master data plus the
oracles for `new Date()` and the generated `IMP-…` ids (indexed by the row
at which the id is drawn). -/
structure HtEnv where
  machines : List Machine := []
  items : List Item := []
  locations : List NamedEntity := []
  history : List HistRec := []
  nowISO : String := ""
  dateISO : Option String → String := fun _ => ""
  genId : Nat → String := fun _ => ""

/-- Processing of one issue-request row: normalize, gate on truthy
item reference and quantity, resolve references, then skip the row when the
item resolves to `''` or the machine resolves to `"Unknown"`; otherwise
classify as update (`true`) when `history` already holds the id, else add
(`false`). -/
def processRequestRow (env : HtEnv) (rowIndex : Nat)
    (row : List (String × Option String)) : Option (Bool × HistRec) :=
  let obj := row.foldl (reqStep env.dateISO) {}
  let id := jsOrO obj.id (env.genId rowIndex)
  let itemId := jsOrO obj.itemId ""
  let qty := numOr0O obj.quantity
  if itemId ≠ "" && qty ≠ 0 then
    let record : HistRec := {
      id := id,
      timestamp := jsOrO obj.timestamp env.nowISO,
      locationId := htResolveId env.locations (jsOrO obj.locationId "Unknown"),
      itemId := htResolveItemId env.items itemId,
      itemName := jsOrO obj.itemName
        (jsOrO ((env.items.find? (fun i => i.id = itemId)).bind (·.name))
          "Unknown Item"),
      quantity := qty,
      unit := jsOrO obj.unit "pcs",
      machineId := resolveMachineId env.machines
        (jsOrO obj.machineId (jsOrO obj.machineName "Unknown")),
      machineName := jsOrO obj.machineName "Unknown",
      status := jsOrO obj.status "Completed",
      maintenancePlan := jsOrO obj.maintenancePlan "" }
    if record.itemId = "" then none
    else if record.machineId = "Unknown" then none
    else some ((env.history.find? (fun h => h.id = record.id)).isSome, record)
  else none

/-- One `data.forEach` step of the issue-request pass: push the classified
record to `toUpdate`/`toAdd` (the third component counts rows, indexing the
id-generation oracle). -/
def reqFoldStep (env : HtEnv) (acc : List HistRec × List HistRec × Nat)
    (row : List (String × Option String)) :
    List HistRec × List HistRec × Nat :=
  match processRequestRow env acc.2.2 row with
  | none => (acc.1, acc.2.1, acc.2.2 + 1)
  | some (true, r) => (acc.1, acc.2.1 ++ [r], acc.2.2 + 1)
  | some (false, r) => (acc.1 ++ [r], acc.2.1, acc.2.2 + 1)

/-- The issue-request reconciliation pass (`activeTab === 'requests'`):
returns `(toAdd, toUpdate)`. -/
def processRequests (env : HtEnv)
    (data : List (List (String × Option String))) :
    List HistRec × List HistRec :=
  let res := data.foldl (reqFoldStep env) ([], [], 0)
  (res.1, res.2.1)

/-! ## `HistoryTable.tsx`: stock-item import -/

/-- The normalized field object built per stock row. -/
structure StockObj where
  id : Option String := none
  name : Option String := none
  stockQuantity : Option (Option Int) := none
  unit : Option String := none
  category : Option String := none
deriving DecidableEq, Repr

/-- One alias-table step of the stock normalization. -/
def stockStep (obj : StockObj) (kv : String × Option String) : StockObj :=
  let header := stripSeps (jsLower kv.1)
  let val := kv.2
  if header = "id" || header = "itemid" || header = "itemnumber"
      || header = "itemcode" || header = "partnumber" then
    { obj with id := some (jsString val) }
  else if header = "name" || header = "description" then
    { obj with name := some (jsString val) }
  else if header = "stockqty" || header = "qty" || header = "quantity"
      || header = "count" then
    { obj with stockQuantity := some (jsNumberO val) }
  else if header = "unit" then { obj with unit := some (jsString val) }
  else if header = "category" then { obj with category := some (jsString val) }
  else obj

/-- A new stock item as pushed to `toAdd` (all defaults applied). -/
structure StockAdd where
  id : String
  name : String
  stockQuantity : Int
  unit : String
  category : String
deriving DecidableEq, Repr

/-- `{ ...existing, ...obj }` for the stock-update path: fields assigned on
the normalized object overwrite the existing item's, the rest survive.  An
assigned `NaN` quantity (`some none`) does overwrite. -/
def mergeItemStock (e : Item) (o : StockObj) : Item :=
  { e with
    id := match o.id with | some s => s | none => e.id,
    name := o.name.or e.name,
    stockQuantity := match o.stockQuantity with
      | some q => some q
      | none => e.stockQuantity,
    unit := o.unit.or e.unit,
    category := o.category.or e.category }

/-- Processing of one stock row: rows without a truthy id are silently
dropped; an id found in the item master yields a merge (`Sum.inr`), a fresh
id a defaulted new item (`Sum.inl`). -/
def processStockRow (items : List Item)
    (row : List (String × Option String)) : Option (StockAdd ⊕ Item) :=
  let obj := row.foldl stockStep {}
  match obj.id with
  | some s =>
    if s ≠ "" then
      match items.find? (fun i => i.id = s) with
      | some e => some (.inr (mergeItemStock e obj))
      | none => some (.inl {
          id := s,
          name := jsOrO obj.name "New Item",
          stockQuantity := numOr0O obj.stockQuantity,
          unit := jsOrO obj.unit "pcs",
          category := jsOrO obj.category "General" })
    else none
  | none => none

/-- One `data.forEach` step of the stock pass. -/
def stockFoldStep (items : List Item) (acc : List StockAdd × List Item)
    (row : List (String × Option String)) : List StockAdd × List Item :=
  match processStockRow items row with
  | none => acc
  | some (.inl a) => (acc.1 ++ [a], acc.2)
  | some (.inr u) => (acc.1, acc.2 ++ [u])

/-- The stock reconciliation pass (`activeTab === 'stock'`): returns
`(toAdd, toUpdate)`. -/
def processStock (items : List Item)
    (data : List (List (String × Option String))) :
    List StockAdd × List Item :=
  data.foldl (stockFoldStep items) ([], [])

/-! ## `HistoryTable.tsx`: full file pipeline -/

/-- `obj[k] = v` on a string-valued assoc list (replace first binding of
`k`, else append). -/
def assocSet (l : List (String × Option String)) (k : String)
    (v : Option String) : List (String × Option String) :=
  match l with
  | [] => [(k, v)]
  | (k', v') :: t => if k' = k then (k, v) :: t else (k', v') :: assocSet t k v

/-- `headerRaw.forEach((h, i) => { obj[String(h)] = r[i]; })`. -/
def buildRowObj (headerRaw : List (Option String))
    (r : List (Option String)) : List (String × Option String) :=
  headerRaw.enum.foldl
    (fun acc iv => assocSet acc (jsString iv.2) (r.getD iv.1 none)) []

/-- `Object.values(obj).some(v => v !== undefined && v !== null && v !== '')`. -/
def rowNonBlank (o : List (String × Option String)) : Bool :=
  o.any (fun kv => match kv.2 with | some s => s ≠ "" | none => false)

/-- The `handleFileChange` pipeline of `HistoryTable.tsx` on the
issue-request tab, starting from the raw cell grid: header detection, row
objects, blank-row filtering, the `data.length === 0` abort (`none`), then
the request pass. -/
def htImportRequests (env : HtEnv) (grid : List (List (Option String))) :
    Option (List HistRec × List HistRec) :=
  let headerRowIndex := htHeaderDetect grid
  let rows := grid.drop (headerRowIndex + 1)
  let headerRaw := (grid.get? headerRowIndex).getD []
  let data := (rows.map (buildRowObj headerRaw)).filter rowNonBlank
  if data.length = 0 then none
  else some (processRequests env data)

/-- The `handleFileChange` pipeline of `HistoryTable.tsx` on the stock tab. -/
def htImportStock (items : List Item) (grid : List (List (Option String))) :
    Option (List StockAdd × List Item) :=
  let headerRowIndex := htHeaderDetect grid
  let rows := grid.drop (headerRowIndex + 1)
  let headerRaw := (grid.get? headerRowIndex).getD []
  let data := (rows.map (buildRowObj headerRaw)).filter rowNonBlank
  if data.length = 0 then none
  else some (processStock items data)

/-! ## `AssetManagement.tsx`: sheet import (`processImport`) -/

/-- Breakdown record (fields used by the import merge). -/
structure Brk where
  id : String
  machineName : Option String := none
  status : Option String := none
deriving DecidableEq, Repr

/-- BOM record (fields used by the import; records written by this import
path always carry `machineCategory` and `itemId`). -/
structure BOM where
  id : String
  machineCategory : String
  modelNo : Option String := none
  itemId : String
  quantity : Option Int := none
  brand : Option String := none
  sortOrder : Option Nat := none
deriving DecidableEq, Repr

/-- The import tabs that call `processImport`. -/
inductive AmTab
  | machines
  | breakdowns
  | bom
deriving DecidableEq, Repr

/-- The normalized row object of `processImport`.  Fields of type
`Option (Option String)` model fields the source can assign `null` to
(`resolveId(...) || null`, `resolveItemId(val)`): the outer `none` is
"never assigned", `some none` is an assigned `null`. -/
structure AmObj where
  sortOrder : Option Nat := none
  id : Option String := none
  category : Option String := none
  machineName : Option String := none
  status : Option String := none
  brand : Option String := none
  modelNo : Option String := none
  chassisNo : Option String := none
  divisionId : Option (Option String) := none
  sectorId : Option (Option String) := none
  locationId : Option (Option String) := none
  mainGroup : Option String := none
  subGroup : Option String := none
  machineLocalNo : Option String := none
  machineCategory : Option String := none
  itemId : Option (Option String) := none
  quantity : Option Int := none
deriving DecidableEq, Repr

/-- Truthiness of a possibly-absent, possibly-`null` string. -/
def oTruthy2 : Option (Option String) → Bool
  | some (some s) => s ≠ ""
  | _ => false

/-- `x || null` on a nullable string. -/
def jsOrNull : Option String → Option String
  | some s => if s = "" then none else some s
  | none => none

/-- the local `resolveId` of `processImport`: exact id, else
case-insensitive name, else `null`. -/
def amResolveId (list : List NamedEntity) (val : String) : Option String :=
  if val = "" then none
  else
    let trimmed := jsTrim val
    if trimmed = "" then none
    else
      match list.find? (fun i => i.id = trimmed) with
      | some i => some i.id
      | none =>
        match list.find? (fun i => jsLower (jsOr i.name "") = jsLower trimmed) with
        | some i => some i.id
        | none => none

/-- `String(val).trim().toLowerCase().replace(/['"«»]/g, '')`. -/
def removeQuotes (s : String) : String :=
  ⟨s.toList.filter (fun c => !(c = '\'' || c = '"' || c = '«' || c = '»'))⟩

/-- the local `resolveItemId` of `processImport`: lower-cased exact id,
part number, second/third id, name/full name, then digits-only comparison
for purely numeric references; else `null`. -/
def amResolveItemId (items : List Item) (val : String) : Option String :=
  if val = "" then none
  else
    let trimmed := removeQuotes (jsLower (jsTrim val))
    if trimmed = "" then none
    else
      match items.find? (fun i => jsLower i.id = trimmed) with
      | some i => some i.id
      | none =>
      match items.find? (fun i => jsLower (jsOrO i.partNumber "") = trimmed) with
      | some i => some i.id
      | none =>
      match items.find? (fun i => jsLower (jsOrO i.secondId "") = trimmed
          || jsLower (jsOrO i.thirdId "") = trimmed) with
      | some i => some i.id
      | none =>
      match items.find? (fun i => jsLower (jsOrO i.name "") = trimmed
          || jsLower (jsOrO i.fullName "") = trimmed) with
      | some i => some i.id
      | none =>
        if allDigits trimmed then
          match items.find? (fun i => stripNonDigits i.id = trimmed
              || stripNonDigits (jsOrO i.partNumber "") = trimmed) with
          | some i => some i.id
          | none => none
        else none

/-- Environment of `processImport`: the master collections read by the
import.  The `Date.now()` / `Math.random()` oracles are passed separately
(indexed by the row at which the draw happens). -/
structure AmEnv where
  items : List Item := []
  machines : List Machine := []
  breakdowns : List Brk := []
  bomRecords : List BOM := []
  divisions : List NamedEntity := []
  sectors : List NamedEntity := []
  locations : List NamedEntity := []
deriving DecidableEq, Repr

/-- `` `BOM-${Date.now()}-${Math.floor(Math.random() * 10000)}` ``. -/
def mkBomId (ts rnd : Nat) : String :=
  "BOM-" ++ toString ts ++ "-" ++ toString (rnd % 10000)

/-- `` `M-${Math.floor(Math.random() * 900000) + 100000}` ``. -/
def mkMachineId (rnd : Nat) : String :=
  "M-" ++ toString (rnd % 900000 + 100000)

/-- One step of the `headers.forEach` normalization of `processImport`:
the generic alias chain followed by the BOM-specific block.  Headers are
already lower-cased and trimmed; the step strips whitespace/`-`/`_`/`.`.
The accumulator carries the row object and the `failedItemMatches` list. -/
def amNormStep (items : List Item) (divisions sectors locations : List NamedEntity)
    (tab : AmTab) (acc : AmObj × List String)
    (hv : String × Option String) : AmObj × List String :=
  let header := stripSeps hv.1
  let cell := hv.2
  let sv := jsTrim (jsString cell)
  let obj := acc.1
  let failed := acc.2
  let (obj, failed) :=
    if (header = "id" || header = "machineid" || header = "assetid"
        || header = "entryid") && !(oTruthy obj.id) then
      ({ obj with id := if sv = "" then none else some sv }, failed)
    else if sContains header "name" || sContains header "description"
        || sContains header "category" || header = "equipment"
        || header = "machinename" then
      (if tab = .machines then { obj with category := some sv }
       else if tab = .breakdowns then { obj with machineName := some sv }
       else obj, failed)
    else if header = "status" then ({ obj with status := some sv }, failed)
    else if header = "brand" || header = "make" || header = "manufacturer" then
      ({ obj with brand := some sv }, failed)
    else if header = "model" || header = "modelno" || header = "modelnumber"
        || header = "type" then
      ({ obj with modelNo := some sv }, failed)
    else if header = "chase" || header = "chassis" || header = "chaseno"
        || header = "chassisno" || header = "serial" || header = "serialno"
        || header = "sn" then
      ({ obj with chassisNo := some sv }, failed)
    else if sContains header "division" then
      let r := some (jsOrNull (amResolveId divisions (jsString cell)))
      ({ obj with divisionId := r }, failed)
    else if sContains header "sector" then
      let r := some (jsOrNull (amResolveId sectors (jsString cell)))
      ({ obj with sectorId := r }, failed)
    else if sContains header "location" then
      let r := some (jsOrNull (amResolveId locations (jsString cell)))
      ({ obj with locationId := r }, failed)
    else if header = "maingroup" || header = "group" then
      ({ obj with mainGroup := some sv }, failed)
    else if header = "subgroup" then ({ obj with subGroup := some sv }, failed)
    else if header = "localno" || header = "machinelocalno"
        || header = "assetno" then
      ({ obj with machineLocalNo := some sv }, failed)
    else (obj, failed)
  if tab = .bom then
    let (obj, failed) :=
      if header = "machinename" || header = "equipname" || header = "machine" then
        ({ obj with machineCategory := some sv }, failed)
      else if header = "brand" || header = "make" then
        ({ obj with brand := some sv }, failed)
      else if header = "modelno" || header = "modelnumber" || header = "model" then
        ({ obj with modelNo := some sv }, failed)
      else if header = "itemid" || header = "itemcode" || header = "partnumber"
          || header = "code" || header = "item" then
        let r := amResolveItemId items sv
        let failed := if !(oTruthy r) && sv ≠ "" && !(failed.contains sv)
                      then failed ++ [sv] else failed
        ({ obj with itemId := some r }, failed)
      else if header = "quantity" || header = "qty" || header = "count" then
        ({ obj with quantity := some (numOr0 (jsNumberO cell)) }, failed)
      else (obj, failed)
    let obj := if sContains header "machine" && !(oTruthy obj.machineCategory)
               then { obj with machineCategory := some sv } else obj
    let obj := if sContains header "model" && !(oTruthy obj.modelNo)
               then { obj with modelNo := some sv } else obj
    (obj, failed)
  else (obj, failed)

/-- Normalization of one data row (the `headers.forEach` fold), shared by
the id-synthesis phase below. -/
def amNormalizedRow (env : AmEnv) (tab : AmTab) (rowIndex : Nat)
    (headers : List String) (row : List (Option String))
    (failed : List String) : AmObj × List String :=
  let init : AmObj := if tab = .bom then { sortOrder := some rowIndex } else {}
  let cells := headers.enum.map (fun ih => (ih.2, row.getD ih.1 none))
  cells.foldl
    (amNormStep env.items env.divisions env.sectors env.locations tab)
    (init, failed)

/-- The natural-key comparison of the BOM dedup lookup
(`b.machineCategory === obj.machineCategory && (b.modelNo === (obj.modelNo
|| '') || b.modelNo === obj.modelNo) && b.itemId === obj.itemId`). -/
def bomKeyMatch (obj : AmObj) (b : BOM) : Bool :=
  some b.machineCategory = obj.machineCategory
  && (b.modelNo = some (jsOrO obj.modelNo "") || b.modelNo = obj.modelNo)
  && (some (some b.itemId) : Option (Option String)) = obj.itemId

/-- Normalization plus natural-key / id-synthesis phase for one data row of
`processImport`. -/
def amProcessRow (env : AmEnv) (tab : AmTab) (genTs genRand : Nat → Nat)
    (rowIndex : Nat) (headers : List String) (row : List (Option String))
    (failed : List String) : AmObj × List String :=
  let of := amNormalizedRow env tab rowIndex headers row failed
  let obj := of.1
  let obj :=
    if tab = .bom && !(oTruthy obj.id) then
      if oTruthy obj.machineCategory
          && (oTruthy2 obj.itemId || obj.quantity ≠ none) then
        let obj :=
          if oTruthy2 obj.itemId then
            match env.bomRecords.find? (bomKeyMatch obj) with
            | some b => { obj with id := some b.id }
            | none =>
              let g := some (mkBomId (genTs rowIndex) (genRand rowIndex))
              { obj with id := g }
          else obj
        if obj.modelNo = none then { obj with modelNo := some "" } else obj
      else obj
    else obj
  let obj :=
    if tab = .machines && !(oTruthy obj.id) then
      let obj :=
        if oTruthy obj.chassisNo then
          match env.machines.find? (fun m => m.chassisNo = obj.chassisNo) with
          | some m => { obj with id := some m.id }
          | none => obj
        else obj
      if !(oTruthy obj.id) && oTruthy obj.category then
        { obj with id := some (mkMachineId (genRand rowIndex)) }
      else obj
    else obj
  (obj, of.2)

/-- State of one `processImport` run. -/
structure AmState where
  toAdd : List AmObj := []
  toUpdate : List AmObj := []
  skipped : Nat := 0
  failed : List String := []
deriving DecidableEq, Repr

/-- `{ ...exists, ...obj }`: fields assigned on `obj` overwrite. -/
def mergeAm (e o : AmObj) : AmObj :=
  { sortOrder := o.sortOrder.or e.sortOrder,
    id := o.id.or e.id,
    category := o.category.or e.category,
    machineName := o.machineName.or e.machineName,
    status := o.status.or e.status,
    brand := o.brand.or e.brand,
    modelNo := o.modelNo.or e.modelNo,
    chassisNo := o.chassisNo.or e.chassisNo,
    divisionId := o.divisionId.or e.divisionId,
    sectorId := o.sectorId.or e.sectorId,
    locationId := o.locationId.or e.locationId,
    mainGroup := o.mainGroup.or e.mainGroup,
    subGroup := o.subGroup.or e.subGroup,
    machineLocalNo := o.machineLocalNo.or e.machineLocalNo,
    machineCategory := o.machineCategory.or e.machineCategory,
    itemId := o.itemId.or e.itemId,
    quantity := o.quantity.or e.quantity }

/-- A machine master record viewed as a row object (for the merge). -/
def machineToAm (m : Machine) : AmObj :=
  { id := some m.id, category := m.category, chassisNo := m.chassisNo,
    status := m.status, machineLocalNo := m.machineLocalNo }

/-- A breakdown record viewed as a row object. -/
def brkToAm (b : Brk) : AmObj :=
  { id := some b.id, machineName := b.machineName, status := b.status }

/-- A BOM record viewed as a row object. -/
def bomToAm (b : BOM) : AmObj :=
  { id := some b.id, machineCategory := some b.machineCategory,
    modelNo := b.modelNo, itemId := some (some b.itemId),
    quantity := b.quantity, brand := b.brand, sortOrder := b.sortOrder }

/-- `list.find(i => i.id === obj.id)` against the tab's existing
collection. -/
def amFindExisting (env : AmEnv) (tab : AmTab) (s : String) : Option AmObj :=
  match tab with
  | .machines => (env.machines.find? (fun m => m.id = s)).map machineToAm
  | .breakdowns => (env.breakdowns.find? (fun b => b.id = s)).map brkToAm
  | .bom => (env.bomRecords.find? (fun b => b.id = s)).map bomToAm

/-- The push tail of one `processImport` row: `list.find(i => i.id ===
obj.id)` decides between merge-and-update and add. -/
def amPush (env : AmEnv) (tab : AmTab) (st : AmState) (s : String)
    (obj : AmObj) : AmState :=
  match amFindExisting env tab s with
  | some e => { st with toUpdate := st.toUpdate ++ [mergeAm e obj] }
  | none => { st with toAdd := st.toAdd ++ [obj] }

/-- The per-tab mandatory-field defaults applied inside `if (obj.id)`. -/
def amDefaults (tab : AmTab) (obj : AmObj) : AmObj :=
  match tab with
  | .machines => { obj with
      category := some (jsOrO obj.category "Unknown Machine"),
      status := some (jsOrO obj.status "Working"),
      machineLocalNo := some (jsOrO obj.machineLocalNo "") }
  | .breakdowns => { obj with
      machineName := some (jsOrO obj.machineName "Unknown Machine"),
      status := some (jsOrO obj.status "Open") }
  | .bom => { obj with
      machineCategory := some (jsOrO obj.machineCategory "Unknown"),
      modelNo := some (jsOrO obj.modelNo "") }

/-- The classification tail of one `processImport` row: rows without a
truthy id are counted skipped; mandatory-field defaults are applied per tab;
BOM rows whose item did not resolve are dropped (uncounted); otherwise the
row merges onto an existing record with the same id (`toUpdate`) or is
pushed to `toAdd`. -/
def amClassify (env : AmEnv) (tab : AmTab) (st : AmState) (obj : AmObj) :
    AmState :=
  match obj.id with
  | some s =>
    if s ≠ "" then
      let obj := amDefaults tab obj
      if tab = .bom && !(oTruthy2 obj.itemId) then st
      else amPush env tab st s obj
    else { st with skipped := st.skipped + 1 }
  | none => { st with skipped := st.skipped + 1 }

/-- `processImport` from `AssetManagement.tsx`: header detection, header
normalization, then per-row normalization, id synthesis and
classification. -/
def processImport (env : AmEnv) (rows : List (List (Option String)))
    (tab : AmTab) (genTs genRand : Nat → Nat) : AmState :=
  let headerRowIndex := amHeaderDetect rows
  let headers := ((rows.get? headerRowIndex).getD []).map
    (fun h => jsTrim (jsLower (jsString h)))
  let dataRows := rows.drop (headerRowIndex + 1)
  dataRows.enum.foldl
    (fun st ir =>
      let of := amProcessRow env tab genTs genRand ir.1 headers ir.2 st.failed
      amClassify env tab { st with failed := of.2 } of.1)
    {}

/-! ## C1: id disjointness of the change-sets -/

/-- The invariant preserved by the classification tail of `processImport`:
`toAdd` ids are absent from the tab's existing collection, `toUpdate` ids
present. -/
def amInv (env : AmEnv) (tab : AmTab) (st : AmState) : Prop :=
  (∀ o ∈ st.toAdd, ∃ s, o.id = some s ∧ amFindExisting env tab s = none) ∧
  (∀ u ∈ st.toUpdate, ∃ s, u.id = some s ∧ (amFindExisting env tab s).isSome = true)

/-! # Theorems -/

theorem charOfNat_toNat (n : Nat) (h : n < 55296) : (Char.ofNat n).toNat = n := by
  unfold Char.ofNat
  rw [dif_pos (Or.inl h : Nat.isValidChar n)]
  rfl

theorem isUpperA_bounds {c : Char} (h : isUpperA c = true) :
    65 ≤ c.toNat ∧ c.toNat ≤ 90 := by
  simpa [isUpperA] using h

theorem isLowerA_bounds {c : Char} (h : isLowerA c = true) :
    97 ≤ c.toNat ∧ c.toNat ≤ 122 := by
  simpa [isLowerA] using h

theorem toNat_toLowerA {c : Char} (h : isUpperA c = true) :
    (toLowerA c).toNat = c.toNat + 32 := by
  have hb := isUpperA_bounds h
  exact charOfNat_toNat _ (by omega)

theorem isLowerA_toLowerA {c : Char} (h : isUpperA c = true) :
    isLowerA (toLowerA c) = true := by
  have hb := isUpperA_bounds h
  simp [isLowerA, toNat_toLowerA h]
  omega

theorem toUpperA_toLowerA {c : Char} (h : isUpperA c = true) :
    toUpperA (toLowerA c) = c := by
  rw [toUpperA, toNat_toLowerA h, Nat.add_sub_cancel, Char.ofNat_toNat]

theorem isLowerA_ne_dash {c : Char} (h : isLowerA c = true) :
    (c = '-' || c = '_') = false := by
  have hb := isLowerA_bounds h
  rcases Nat.lt_or_ge c.toNat 97 with hlt | _
  · omega
  have h1 : c ≠ '-' := by rintro rfl; simp at hb
  have h2 : c ≠ '_' := by rintro rfl; simp at hb
  simp [h1, h2]

theorem snakeChars_nil_iff (l : List Char) : snakeChars l = [] ↔ l = [] := by
  cases l with
  | nil => simp [snakeChars]
  | cons c cs =>
    simp only [snakeChars]
    constructor
    · intro h; split at h <;> simp_all
    · intro h; simp at h

/-- Character-level round trip: camelizing the snake-cased form of a
letters-only key gives back the key. -/
theorem camelChars_snakeChars (l : List Char) (h : ∀ c ∈ l, isAlphaA c = true) :
    camelChars (snakeChars l) = l := by
  induction l with
  | nil => rfl
  | cons c cs ih =>
    have hc : isAlphaA c = true := h c (by simp)
    have ih' := ih (fun x hx => h x (by simp [hx]))
    by_cases hu : isUpperA c = true
    · have hlow := isLowerA_toLowerA hu
      simp only [snakeChars, hu, if_pos]
      show camelChars ('_' :: toLowerA c :: snakeChars cs) = c :: cs
      simp [camelChars, hlow, toUpperA_toLowerA hu, ih']
    · have hl : isLowerA c = true := by
        simp only [isAlphaA, Bool.or_eq_true] at hc
        tauto
      simp only [snakeChars, hu, if_neg, Bool.false_eq_true, not_false_iff,
        ite_false]
      cases hs : snakeChars cs with
      | nil =>
        have : cs = [] := (snakeChars_nil_iff cs).mp hs
        subst this
        simp [camelChars]
      | cons d ds =>
        show camelChars (c :: d :: ds) = c :: cs
        simp only [camelChars, isLowerA_ne_dash hl, Bool.false_and,
          Bool.false_eq_true, not_false_iff, ite_false]
        rw [← hs, ih']

/-- String-level round trip for letters-only keys. -/
theorem toCamelCase_toSnakeCase (k : String) (h : ∀ c ∈ k.toList, isAlphaA c = true) :
    toCamelCase (toSnakeCase k) = k := by
  apply String.ext
  show camelChars (snakeChars k.toList) = k.data
  exact camelChars_snakeChars k.toList h

theorem toSnakeCase_letters_inj {k K : String} (h : ∀ c ∈ k.toList, isAlphaA c = true)
    (hK : toCamelCase K = K) (hk : toSnakeCase k = K) : k = K := by
  rw [← toCamelCase_toSnakeCase k h, hk, hK]

theorem splitCommaAux_no_comma (x : List Char) (hx : ',' ∉ x) (acc : List Char) :
    splitCommaAux x acc = [⟨acc.reverse ++ x⟩] := by
  induction x generalizing acc with
  | nil => simp [splitCommaAux]
  | cons c cs ih =>
    have hc : c ≠ ',' := fun hc => hx (hc ▸ List.mem_cons_self c cs)
    have hcs : ',' ∉ cs := fun hm => hx (List.mem_cons_of_mem c hm)
    show (if c = ',' then _ else splitCommaAux cs (c :: acc)) = _
    rw [if_neg hc, ih hcs (c :: acc)]
    congr 2
    simp

theorem splitCommaAux_append (x : List Char) (hx : ',' ∉ x) (t acc : List Char) :
    splitCommaAux (x ++ ',' :: t) acc
      = (⟨acc.reverse ++ x⟩ : String) :: splitCommaAux t [] := by
  induction x generalizing acc with
  | nil => simp [splitCommaAux]
  | cons c cs ih =>
    have hc : c ≠ ',' := fun hc => hx (hc ▸ List.mem_cons_self c cs)
    have hcs : ',' ∉ cs := fun hm => hx (List.mem_cons_of_mem c hm)
    show (if c = ',' then _ else splitCommaAux (cs ++ ',' :: t) (c :: acc)) = _
    rw [if_neg hc, ih hcs (c :: acc)]
    have hl : (c :: acc).reverse ++ cs = acc.reverse ++ c :: cs := by simp
    rw [hl]

theorem toList_ne_nil {x : String} (hx : x ≠ "") : x.toList ≠ [] := by
  intro h
  exact hx (String.ext h)

/-- `split(',')` inverts `join(',')` on non-empty lists of non-empty,
comma-free strings. -/
theorem splitComma_joinComma (xs : List String) (hne : xs ≠ [])
    (h : ∀ x ∈ xs, x ≠ "" ∧ ',' ∉ x.toList) :
    splitComma (joinComma xs) = xs := by
  induction xs with
  | nil => exact absurd rfl hne
  | cons x ys ih =>
    cases ys with
    | nil =>
      have hx := h x (by simp)
      show splitCommaAux x.toList [] = [x]
      rw [splitCommaAux_no_comma x.toList hx.2 []]
      simp
    | cons y zs =>
      have hx := h x (by simp)
      have hrest : ∀ a ∈ y :: zs, a ≠ "" ∧ ',' ∉ a.toList :=
        fun a ha => h a (by simp [ha])
      have ihr := ih (by simp) hrest
      have hdata : (joinComma (x :: y :: zs)).toList
          = x.toList ++ ',' :: (joinComma (y :: zs)).toList := by
        show ((x ++ "," ++ joinComma (y :: zs)).data) = _
        simp [String.data]
      show splitCommaAux (joinComma (x :: y :: zs)).toList [] = _
      rw [hdata, splitCommaAux_append x.toList hx.2]
      rw [show splitCommaAux (joinComma (y :: zs)).toList [] = splitComma (joinComma (y :: zs)) from rfl, ihr]
      simp

theorem joinComma_ne_empty (xs : List String) (hne : xs ≠ [])
    (h : ∀ x ∈ xs, x ≠ "") : joinComma xs ≠ "" := by
  cases xs with
  | nil => exact absurd rfl hne
  | cons x ys =>
    have hx := h x (by simp)
    cases ys with
    | nil =>
      simpa [joinComma] using hx
    | cons y zs =>
      simp only [joinComma]
      intro hc
      have h2 := congrArg String.data hc
      simp [String.data] at h2

/-! ## C9: the boundary translation round-trips -/

theorem toSupabaseEntry_keeps_nonempty_vstr (k s : String) (hs : s ≠ "") :
    toSupabaseEntry (k, .vstr s) = (toSnakeCase k, .vstr s) := by
  simp [toSupabaseEntry, isEmptyVal, hs]

theorem toSupabaseEntry_listfield (k : String) (xs : List String)
    (hk : k ∈ listFieldKeys)
    (hn : toSnakeCase k ≠ "name") (hst : toSnakeCase k ≠ "status")
    (hc : toSnakeCase k ≠ "category") (hjoin : joinComma xs ≠ "") :
    toSupabaseEntry (k, .varr xs) = (toSnakeCase k, .vstr (joinComma xs)) := by
  simp [toSupabaseEntry, hk, isEmptyVal, hjoin, hn, hst, hc]

theorem fromSupabaseEntry_snake_listfield (k s : String)
    (hcam : toCamelCase (toSnakeCase k) = k) (hkf : k ∈ listFieldKeys)
    (hs : s ≠ "") :
    fromSupabaseEntry (toSnakeCase k, .vstr s) = (k, .varr (splitComma s)) := by
  simp [fromSupabaseEntry, hcam, hkf, hs]

theorem fromSupabaseEntry_keeps_nonlist (ks k s : String)
    (hcam : toCamelCase ks = k) (hkf : k ∉ listFieldKeys) :
    fromSupabaseEntry (ks, .vstr s) = (k, .vstr s) := by
  subst hcam
  simp [fromSupabaseEntry, hkf]

/-- Pointwise round trip of one record entry under the claim's hypotheses. -/
theorem fromSupabaseEntry_toSupabaseEntry (kv : String × Val)
    (hletters : ∀ c ∈ kv.1.toList, isAlphaA c = true)
    (hthree : kv.1 = "name" ∨ kv.1 = "status" ∨ kv.1 = "category" →
      isNonemptyStr kv.2 = true)
    (hlist : kv.1 ∈ listFieldKeys → isGoodListVal kv.2 = true) :
    fromSupabaseEntry (toSupabaseEntry kv) = kv := by
  obtain ⟨k, v⟩ := kv
  have hk : toCamelCase (toSnakeCase k) = k := toCamelCase_toSnakeCase k hletters
  by_cases hfk : k ∈ listFieldKeys
  · have hg := hlist hfk
    obtain ⟨xs, hv⟩ : ∃ xs, v = .varr xs := by
      cases v <;> simp [isGoodListVal] at hg ⊢
    subst hv
    simp only [isGoodListVal, Bool.and_eq_true, List.all_eq_true,
      decide_eq_true_eq] at hg
    obtain ⟨hxs, hx⟩ := hg
    have hjoin : joinComma xs ≠ "" :=
      joinComma_ne_empty xs hxs (fun x hxm => (hx x hxm).1)
    have hsplit : splitComma (joinComma xs) = xs := splitComma_joinComma xs hxs hx
    have hn : toSnakeCase k ≠ "name" := by
      intro hcn
      have hkk := toSnakeCase_letters_inj hletters (by decide) hcn
      subst hkk
      exact absurd hfk (by decide)
    have hst : toSnakeCase k ≠ "status" := by
      intro hcn
      have hkk := toSnakeCase_letters_inj hletters (by decide) hcn
      subst hkk
      exact absurd hfk (by decide)
    have hc : toSnakeCase k ≠ "category" := by
      intro hcn
      have hkk := toSnakeCase_letters_inj hletters (by decide) hcn
      subst hkk
      exact absurd hfk (by decide)
    rw [toSupabaseEntry_listfield k xs hfk hn hst hc hjoin,
        fromSupabaseEntry_snake_listfield k _ hk hfk hjoin, hsplit]
  · by_cases h3 : k = "name" ∨ k = "status" ∨ k = "category"
    · have hg := hthree h3
      obtain ⟨s, hv, hs⟩ : ∃ s, v = .vstr s ∧ s ≠ "" := by
        cases v <;> simp [isNonemptyStr] at hg ⊢
        simpa using hg
      subst hv
      rw [toSupabaseEntry_keeps_nonempty_vstr _ _ hs,
          fromSupabaseEntry_keeps_nonlist _ _ _ hk hfk]
    · push_neg at h3
      obtain ⟨hn, hst, hc⟩ := h3
      have hcoln : toSnakeCase k ≠ "name" := fun hcn =>
        hn (toSnakeCase_letters_inj hletters (by decide) hcn)
      have hcols : toSnakeCase k ≠ "status" := fun hcn =>
        hst (toSnakeCase_letters_inj hletters (by decide) hcn)
      have hcolc : toSnakeCase k ≠ "category" := fun hcn =>
        hc (toSnakeCase_letters_inj hletters (by decide) hcn)
      have hto : toSupabaseEntry (k, v) = (toSnakeCase k, v) := by
        cases v <;> simp [toSupabaseEntry, hfk, hcoln, hcols, hcolc, isEmptyVal]
      rw [hto]
      cases v <;> simp [fromSupabaseEntry, hk, hfk]

/-- After the per-entry translation, a column named by an all-lower-case key
`K` that the record binds to a non-empty string is still bound to it. -/
theorem valFalsy_lookup_processed (record : SRec) (K : String)
    (hKcamel : toCamelCase K = K) (hKsnake : toSnakeCase K = K)
    (hletters : ∀ kv ∈ record, ∀ c ∈ kv.1.toList, isAlphaA c = true)
    (hval : ∀ kv ∈ record, kv.1 = K → isNonemptyStr kv.2 = true)
    (hmem : K ∈ record.map Prod.fst) :
    valFalsy ((record.map toSupabaseEntry).lookup K) = false := by
  induction record with
  | nil => simp at hmem
  | cons kv t ih =>
    by_cases hk : kv.1 = K
    · have hg := hval kv (by simp) hk
      obtain ⟨s, hv, hs⟩ : ∃ s, kv.2 = .vstr s ∧ s ≠ "" := by
        cases hvv : kv.2 <;> rw [hvv] at hg <;> simp [isNonemptyStr] at hg ⊢
        simpa using hg
      have hkv : kv = (K, .vstr s) := by
        obtain ⟨a, b⟩ := kv
        simp only at hk hv
        rw [hk, hv]
      rw [List.map_cons, hkv, toSupabaseEntry_keeps_nonempty_vstr K s hs, hKsnake]
      simp [List.lookup, valFalsy, hs]
    · have hne : toSnakeCase kv.1 ≠ K := fun hcn =>
        hk (toSnakeCase_letters_inj (hletters kv (by simp)) hKcamel hcn)
      have hmem' : K ∈ t.map Prod.fst := by
        simp only [List.map_cons, List.mem_cons] at hmem
        rcases hmem with h | h
        · exact absurd h.symm hk
        · exact h
      have hpair : toSupabaseEntry kv = (toSnakeCase kv.1, (toSupabaseEntry kv).2) := by
        obtain ⟨a, b⟩ := kv
        simp [toSupabaseEntry]
      rw [List.map_cons, hpair]
      have hbeq : (K == toSnakeCase kv.1) = false :=
        beq_eq_false_iff_ne.mpr (fun hcn => hne hcn.symm)
      simp only [List.lookup, hbeq]
      exact ih (fun x hx => hletters x (by simp [hx]))
        (fun x hx hxk => hval x (by simp [hx]) hxk) hmem'

/-- C9 (confirmed): for records whose keys are letters-only camelCase
identifiers, whose `name`/`status`/`category` fields are bound to non-empty
strings, and whose declared list-valued fields (`allowedLocationIds`,
`allowedSectorIds`, `allowedDivisionIds`, `allowedMenus`) are non-empty
arrays of non-empty comma-free strings, translating to the store
representation (snake_case keys, lists comma-joined) and back (camelCase
keys, strings split on commas) returns an equal record, for any table. -/
theorem supabase_roundtrip (record : SRec) (tableName : String)
    (hletters : ∀ kv ∈ record, ∀ c ∈ kv.1.toList, isAlphaA c = true)
    (hthree : ∀ kv ∈ record, kv.1 = "name" ∨ kv.1 = "status" ∨ kv.1 = "category" →
      isNonemptyStr kv.2 = true)
    (hlist : ∀ kv ∈ record, kv.1 ∈ listFieldKeys → isGoodListVal kv.2 = true)
    (hname : "name" ∈ record.map Prod.fst)
    (hstatus : "status" ∈ record.map Prod.fst)
    (hcategory : "category" ∈ record.map Prod.fst) :
    processRecordFromSupabase (processRecordToSupabase record tableName) = record := by
  have hn := valFalsy_lookup_processed record "name" (by decide) (by decide)
    hletters (fun kv h hk => hthree kv h (Or.inl hk)) hname
  have hs := valFalsy_lookup_processed record "status" (by decide) (by decide)
    hletters (fun kv h hk => hthree kv h (Or.inr (Or.inl hk))) hstatus
  have _hc := hcategory
  unfold processRecordToSupabase
  simp only [hn, hs, Bool.and_false, Bool.false_eq_true, if_false]
  unfold processRecordFromSupabase
  rw [List.map_map]
  have hpt : ∀ kv ∈ record, (fromSupabaseEntry ∘ toSupabaseEntry) kv = id kv := by
    intro kv hkv
    exact fromSupabaseEntry_toSupabaseEntry kv (hletters kv hkv)
      (hthree kv hkv) (hlist kv hkv)
  rw [List.map_congr_left hpt, List.map_id]

/-- C9 witness: a concrete user-style record with letter-only camelCase keys
round-trips through the Supabase boundary translation. -/
theorem supabase_roundtrip_witness :
    processRecordFromSupabase (processRecordToSupabase
      [("id", .vstr "u1"), ("name", .vstr "Alice"), ("status", .vstr "Active"),
       ("category", .vstr "General"),
       ("allowedMenus", .varr ["dashboard", "reports"]),
       ("loginCount", .vnum 5)] "users")
    = [("id", .vstr "u1"), ("name", .vstr "Alice"), ("status", .vstr "Active"),
       ("category", .vstr "General"),
       ("allowedMenus", .varr ["dashboard", "reports"]),
       ("loginCount", .vnum 5)] :=
  supabase_roundtrip _ "users" (by decide) (by decide) (by decide)
    (by decide) (by decide) (by decide)

/-! ## `supabaseService.ts`: bulk persistence gateway -/

/-- C2 (confirmed): a 250-record change-set is issued as exactly 3 batches
(sizes 100, 100, 50).  If every attempt of the 2nd batch fails with message
`em` while batches 1 and 3 succeed, the run retries batch 2 three times with
linear backoff sleeps of 1000 ms and 2000 ms between the attempts, records
`(2, em)` as the failed batch, still processes batches 1 and 3, and returns
status `"partial"` with count `150` (the records of batches 1 and 3). -/
theorem bulk_partial_250 (recs : List SRec) (h : recs.length = 250) (em : String) :
    let out := bulkUpsertSupabaseRecords
      (fun k => if k = 0 then .ok 100 else if k ≤ 3 then .error em else .ok 50)
      "items" (some recs)
    out.result.status = "partial" ∧
    out.result.count = some 150 ∧
    out.result.message = some "150/250 uploaded. 1 batches failed." ∧
    out.trace.failedBatches = [(2, em)] ∧
    out.trace.attempts.map Prod.fst = [1, 2, 2, 2, 3] ∧
    (out.trace.attempts.map Prod.fst).dedup = [1, 2, 3] ∧
    out.trace.attempts.map (fun a => a.2.length) = [100, 100, 100, 100, 50] ∧
    out.trace.sleeps = [200, 1000, 2000, 200] := by
  simp only [bulkUpsertSupabaseRecords, bulkLoop, tryBatch, tableMap,
    List.lookup, h]
  norm_num [List.length_take, List.length_drop, h, List.dedup]
  decide

/-- C2 witness: the scenario instantiated at a concrete 250-record list and
error message. -/
theorem bulk_partial_250_witness :
    (List.replicate 250 ([] : SRec)).length = 250 ∧
    (let out := bulkUpsertSupabaseRecords
      (fun k => if k = 0 then .ok 100 else if k ≤ 3 then .error "boom" else .ok 50)
      "items" (some (List.replicate 250 ([] : SRec)))
     out.result.status = "partial" ∧
     out.result.count = some 150 ∧
     out.result.message = some "150/250 uploaded. 1 batches failed." ∧
     out.trace.failedBatches = [(2, "boom")] ∧
     out.trace.attempts.map Prod.fst = [1, 2, 2, 2, 3] ∧
     (out.trace.attempts.map Prod.fst).dedup = [1, 2, 3] ∧
     out.trace.attempts.map (fun a => a.2.length) = [100, 100, 100, 100, 50] ∧
     out.trace.sleeps = [200, 1000, 2000, 200]) :=
  ⟨by rw [List.length_replicate], bulk_partial_250 (List.replicate 250 [])
    (by rw [List.length_replicate]) "boom"⟩

/-- C10 (confirmed): for a known table, calling the bulk persistence with a
missing (`null`) or empty record list returns `{status: "success", count: 0}`
immediately: no upsert call is issued and the progress callback is never
invoked (the whole trace is empty). -/
theorem bulk_empty_success (remote : Nat → Except String Nat) (tbl : String)
    (h : (tableMap.lookup tbl).isSome) :
    bulkUpsertSupabaseRecords remote tbl none
      = { result := { status := "success", count := some 0 }, trace := {} } ∧
    bulkUpsertSupabaseRecords remote tbl (some [])
      = { result := { status := "success", count := some 0 }, trace := {} } := by
  obtain ⟨t, ht⟩ := Option.isSome_iff_exists.mp h
  constructor <;> (unfold bulkUpsertSupabaseRecords; rw [ht]; try rfl)

/-- C10 witness: the empty-input fast path at the concrete table `items`. -/
theorem bulk_empty_success_witness :
    ((tableMap.lookup "items").isSome = true) ∧
    (bulkUpsertSupabaseRecords (fun _ => .ok 0) "items" none
      = { result := { status := "success", count := some 0 }, trace := {} } ∧
     bulkUpsertSupabaseRecords (fun _ => .ok 0) "items" (some [])
      = { result := { status := "success", count := some 0 }, trace := {} }) :=
  ⟨by decide, bulk_empty_success (fun _ => .ok 0) "items" (by decide)⟩

/-! ## Header detection (`HistoryTable.tsx` / `AssetManagement.tsx`) -/

theorem headerScan_eq_findIdx (keys : List String)
    (l : List (List (Option String))) :
    ∀ fuel r, headerScan keys fuel r l
      = match (l.take fuel).findIdx? (fun row => 2 ≤ rowHits keys row) with
        | some j => r + j
        | none => 0 := by
  induction l with
  | nil => intro fuel r; cases fuel <;> simp [headerScan]
  | cons row rest ih =>
    intro fuel r
    cases fuel with
    | zero => simp [headerScan]
    | succ f =>
      simp only [headerScan, List.take_succ_cons, List.findIdx?_cons]
      by_cases hq : 2 ≤ rowHits keys row
      · simp [hq]
      · rw [if_neg hq, ih f (r + 1)]
        have hq' : (decide (2 ≤ rowHits keys row)) = false := by simpa using hq
        simp only [hq', Bool.false_eq_true, if_false, List.findIdx?_succ]
        cases (rest.take f).findIdx? (fun row => 2 ≤ rowHits keys row) with
        | none => simp
        | some j =>
          show r + 1 + j = r + (j + 1)
          omega

theorem headerDetect_eq_spec (keys : List String)
    (rows : List (List (Option String))) :
    headerDetect keys rows = specHeaderDetect keys rows := by
  unfold headerDetect specHeaderDetect
  rw [headerScan_eq_findIdx]
  have htake : rows.take (min rows.length 10) = rows.take 10 := by
    rcases le_total rows.length 10 with h | h
    · rw [min_eq_left h, List.take_length, List.take_of_length_le h]
    · rw [min_eq_right h]
  rw [htake]
  cases (rows.take 10).findIdx? (fun row => 2 ≤ rowHits keys row) <;> simp

/-- C6 counterexample: neither file's detector implements the claim's
12-keyword set.  A grid whose second row holds `"date"`/`"status"` cells is
selected at index 1 by the claimed detector but AssetManagement's detector
falls back to row 0; a grid whose second row holds `"part"`/`"serial"` cells
is selected by the claimed detector but HistoryTable's detector falls back
to row 0. -/
theorem header_detector_claim_false :
    amHeaderDetect [[some "x"], [some "date", some "status"]] = 0 ∧
    specHeaderDetect specKeywords [[some "x"], [some "date", some "status"]] = 1 ∧
    htHeaderDetect [[some "x"], [some "part", some "serial"]] = 0 ∧
    specHeaderDetect specKeywords [[some "x"], [some "part", some "serial"]] = 1 := by
  refine ⟨?_, ?_, ?_, ?_⟩ <;> decide

/-- C6 (corrected): each file's header detector lower-cases and trims every
cell of each of the first 10 rows, counts cells containing any keyword of
its own fixed set — `{id, date, qty, item, machine, unit, status}` in
`HistoryTable.tsx` and `{id, name, qty, machine, item, part, serial, brand,
model}` in `AssetManagement.tsx` — selects the first row (top-down) with at
least 2 keyword hits, and falls back to row 0 when no scanned row
qualifies. -/
theorem header_detector_per_file_spec (rows : List (List (Option String))) :
    htHeaderDetect rows = specHeaderDetect htKeywords rows ∧
    amHeaderDetect rows = specHeaderDetect amKeywords rows :=
  ⟨headerDetect_eq_spec htKeywords rows, headerDetect_eq_spec amKeywords rows⟩

/-! ## Master-data entities (shapes as used by the import code) -/

theorem inter_eq_nil_of_forall_not {α : Type} [BEq α] [LawfulBEq α]
    (l₁ l₂ : List α) (h : ∀ x ∈ l₁, x ∉ l₂) : l₁.inter l₂ = [] := by
  simp only [List.inter]
  rw [List.filter_eq_nil_iff]
  intro a ha
  simpa using h a ha

theorem foldl_inv {α β : Type} {P : β → Prop} {f : β → α → β} (l : List α)
    (b : β) (hb : P b) (hf : ∀ b a, P b → P (f b a)) : P (l.foldl f b) := by
  induction l generalizing b with
  | nil => exact hb
  | cons x t ih => exact ih _ (hf b x hb)

theorem amDefaults_id (tab : AmTab) (obj : AmObj) :
    (amDefaults tab obj).id = obj.id := by
  cases tab <;> rfl

theorem mergeAm_id_of_some (e o : AmObj) (s : String) (h : o.id = some s) :
    (mergeAm e o).id = some s := by
  unfold mergeAm
  simp [h, Option.or]

theorem amPush_inv (env : AmEnv) (tab : AmTab) (st : AmState) (s : String)
    (obj : AmObj) (hid : obj.id = some s) (h : amInv env tab st) :
    amInv env tab (amPush env tab st s obj) := by
  obtain ⟨ha, hu⟩ := h
  unfold amPush
  cases hfind : amFindExisting env tab s with
  | some e =>
    refine ⟨ha, ?_⟩
    intro u hmem
    rcases List.mem_append.mp hmem with hold | hnew
    · exact hu u hold
    · have : u = mergeAm e obj := by simpa using hnew
      subst this
      exact ⟨s, mergeAm_id_of_some e obj s hid, by rw [hfind]; rfl⟩
  | none =>
    refine ⟨?_, hu⟩
    intro o hmem
    rcases List.mem_append.mp hmem with hold | hnew
    · exact ha o hold
    · have : o = obj := by simpa using hnew
      subst this
      exact ⟨s, hid, hfind⟩

theorem amClassify_inv (env : AmEnv) (tab : AmTab) (st : AmState) (obj : AmObj)
    (h : amInv env tab st) : amInv env tab (amClassify env tab st obj) := by
  unfold amClassify
  cases hid : obj.id with
  | none => exact h
  | some s =>
    show amInv env tab
      (if s ≠ "" then
        (if (decide (tab = AmTab.bom) && !oTruthy2 (amDefaults tab obj).itemId) = true
         then st else amPush env tab st s (amDefaults tab obj))
       else { st with skipped := st.skipped + 1 })
    by_cases hs : s ≠ ""
    · rw [if_pos hs]
      by_cases hdrop : (tab = AmTab.bom && !(oTruthy2 (amDefaults tab obj).itemId)) = true
      · simp only [hdrop, if_true]
        exact h
      · simp only [hdrop, Bool.false_eq_true, if_false]
        exact amPush_inv env tab st s (amDefaults tab obj)
          (by rw [amDefaults_id, hid]) h
    · rw [if_neg hs]
      exact h

theorem processImport_inv (env : AmEnv) (rows : List (List (Option String)))
    (tab : AmTab) (genTs genRand : Nat → Nat) :
    amInv env tab (processImport env rows tab genTs genRand) := by
  unfold processImport
  apply foldl_inv
  · exact ⟨by simp [AmState.toAdd], by simp [AmState.toUpdate]⟩
  · intro st ir hst
    apply amClassify_inv
    exact ⟨hst.1, hst.2⟩

theorem processRequestRow_classification (env : HtEnv) (k : Nat)
    (row : List (String × Option String)) (b : Bool) (r : HistRec)
    (h : processRequestRow env k row = some (b, r)) :
    b = (env.history.find? (fun hh => hh.id = r.id)).isSome := by
  simp only [processRequestRow] at h
  split at h
  · split at h
    · exact absurd h (by simp)
    · split at h
      · exact absurd h (by simp)
      · rw [Option.some.injEq, Prod.mk.injEq] at h
        obtain ⟨hb, hr⟩ := h
        rw [← hb, ← hr]
  · exact absurd h (by simp)

theorem processStockRow_inl (items : List Item)
    (row : List (String × Option String)) (a : StockAdd)
    (h : processStockRow items row = some (.inl a)) :
    items.find? (fun i => i.id = a.id) = none := by
  simp only [processStockRow] at h
  split at h
  case h_1 s hobj =>
    split at h
    · split at h
      · exact absurd h (by simp)
      case h_2 hfind =>
        rw [Option.some.injEq, Sum.inl.injEq] at h
        rw [← h]
        exact hfind
    · exact absurd h (by simp)
  case h_2 => exact absurd h (by simp)

theorem processStockRow_inr (items : List Item)
    (row : List (String × Option String)) (u : Item)
    (h : processStockRow items row = some (.inr u)) :
    (items.find? (fun i => i.id = u.id)).isSome = true := by
  simp only [processStockRow] at h
  split at h
  case h_1 s hobj =>
    split at h
    · split at h
      case h_1 e hfind =>
        rw [Option.some.injEq, Sum.inr.injEq] at h
        have hid : u.id = s := by
          rw [← h]
          show (mergeItemStock e _).id = s
          unfold mergeItemStock
          simp [hobj]
        rw [hid, hfind]
        rfl
      · exact absurd h (by simp)
    · exact absurd h (by simp)
  case h_2 => exact absurd h (by simp)

theorem reqFoldStep_inv (env : HtEnv)
    (acc : List HistRec × List HistRec × Nat)
    (row : List (String × Option String))
    (hacc : (∀ r ∈ acc.1,
        (env.history.find? (fun hh => hh.id = r.id)).isSome = false) ∧
      (∀ r ∈ acc.2.1,
        (env.history.find? (fun hh => hh.id = r.id)).isSome = true)) :
    (∀ r ∈ (reqFoldStep env acc row).1,
      (env.history.find? (fun hh => hh.id = r.id)).isSome = false) ∧
    (∀ r ∈ (reqFoldStep env acc row).2.1,
      (env.history.find? (fun hh => hh.id = r.id)).isSome = true) := by
  unfold reqFoldStep
  cases hrow : processRequestRow env acc.2.2 row with
  | none => exact hacc
  | some br =>
    obtain ⟨b, r⟩ := br
    have hb := processRequestRow_classification env acc.2.2 row b r hrow
    cases b with
    | false =>
      refine ⟨?_, hacc.2⟩
      intro x hx
      rcases List.mem_append.mp hx with hold | hnew
      · exact hacc.1 x hold
      · have hxr : x = r := by simpa using hnew
        subst hxr
        exact hb.symm
    | true =>
      refine ⟨hacc.1, ?_⟩
      intro x hx
      rcases List.mem_append.mp hx with hold | hnew
      · exact hacc.2 x hold
      · have hxr : x = r := by simpa using hnew
        subst hxr
        exact hb.symm

theorem processRequests_inv (env : HtEnv)
    (data : List (List (String × Option String))) :
    (∀ r ∈ (processRequests env data).1,
      (env.history.find? (fun hh => hh.id = r.id)).isSome = false) ∧
    (∀ r ∈ (processRequests env data).2,
      (env.history.find? (fun hh => hh.id = r.id)).isSome = true) := by
  unfold processRequests
  have h := foldl_inv (f := reqFoldStep env)
    (P := fun acc : List HistRec × List HistRec × Nat =>
      (∀ r ∈ acc.1, (env.history.find? (fun hh => hh.id = r.id)).isSome = false) ∧
      (∀ r ∈ acc.2.1, (env.history.find? (fun hh => hh.id = r.id)).isSome = true))
    data ([], [], 0) (by simp) (fun b a hb => reqFoldStep_inv env b a hb)
  exact ⟨h.1, h.2⟩

theorem stockFoldStep_inv (items : List Item)
    (acc : List StockAdd × List Item)
    (row : List (String × Option String))
    (hacc : (∀ a ∈ acc.1, items.find? (fun i => i.id = a.id) = none) ∧
      (∀ u ∈ acc.2, (items.find? (fun i => i.id = u.id)).isSome = true)) :
    (∀ a ∈ (stockFoldStep items acc row).1,
      items.find? (fun i => i.id = a.id) = none) ∧
    (∀ u ∈ (stockFoldStep items acc row).2,
      (items.find? (fun i => i.id = u.id)).isSome = true) := by
  unfold stockFoldStep
  cases hrow : processStockRow items row with
  | none => exact hacc
  | some su =>
    cases su with
    | inl a =>
      refine ⟨?_, hacc.2⟩
      intro x hx
      rcases List.mem_append.mp hx with hold | hnew
      · exact hacc.1 x hold
      · have hxa : x = a := by simpa using hnew
        subst hxa
        exact processStockRow_inl items row x hrow
    | inr u =>
      refine ⟨hacc.1, ?_⟩
      intro x hx
      rcases List.mem_append.mp hx with hold | hnew
      · exact hacc.2 x hold
      · have hxu : x = u := by simpa using hnew
        subst hxu
        exact processStockRow_inr items row x hrow

theorem processStock_inv (items : List Item)
    (data : List (List (String × Option String))) :
    (∀ a ∈ (processStock items data).1,
      items.find? (fun i => i.id = a.id) = none) ∧
    (∀ u ∈ (processStock items data).2,
      (items.find? (fun i => i.id = u.id)).isSome = true) := by
  unfold processStock
  exact foldl_inv (f := stockFoldStep items)
    (P := fun acc : List StockAdd × List Item =>
      (∀ a ∈ acc.1, items.find? (fun i => i.id = a.id) = none) ∧
      (∀ u ∈ acc.2, (items.find? (fun i => i.id = u.id)).isSome = true))
    data ([], []) (by simp) (fun b a hb => stockFoldStep_inv items b a hb)

/-- C1 counterexample: two stock rows carrying the same explicit id `"X"`
not present in the item master are both pushed to `toAdd`, so `toAdd`
contains the id `"X"` twice — the claim's "never twice within toAdd" is
false on the code. -/
theorem c1_duplicate_id_in_toAdd :
    ((processStock [] [[("Id", some "X"), ("Name", some "Bolt")],
                       [("Id", some "X"), ("Name", some "Nut")]]).1.map
      StockAdd.id) = ["X", "X"] ∧
    ¬ ((processStock [] [[("Id", some "X"), ("Name", some "Bolt")],
                         [("Id", some "X"), ("Name", some "Nut")]]).1.map
      StockAdd.id).Nodup := by
  constructor
  · decide
  · decide

/-- C1 (corrected): in every reconciliation run of each import path, no id
occurs in both `toAdd` and `toUpdate` — each row is classified by membership
of its final id in the same fixed existing collection.  (The second half of
the original claim, uniqueness within `toAdd`, is false: see the
counterexample.) -/
theorem c1_toAdd_toUpdate_disjoint :
    (∀ (env : AmEnv) (rows : List (List (Option String))) (tab : AmTab)
        (genTs genRand : Nat → Nat),
      ((processImport env rows tab genTs genRand).toAdd.map AmObj.id).inter
        ((processImport env rows tab genTs genRand).toUpdate.map AmObj.id)
        = []) ∧
    (∀ (env : HtEnv) (data : List (List (String × Option String))),
      ((processRequests env data).1.map HistRec.id).inter
        ((processRequests env data).2.map HistRec.id) = []) ∧
    (∀ (items : List Item) (data : List (List (String × Option String))),
      ((processStock items data).1.map StockAdd.id).inter
        ((processStock items data).2.map Item.id) = []) := by
  refine ⟨?_, ?_, ?_⟩
  · intro env rows tab genTs genRand
    have h := processImport_inv env rows tab genTs genRand
    apply inter_eq_nil_of_forall_not
    intro x hx hx2
    rcases List.mem_map.mp hx with ⟨o, ho, rfl⟩
    rcases List.mem_map.mp hx2 with ⟨u, hu, huid⟩
    obtain ⟨s, hso, hfo⟩ := h.1 o ho
    obtain ⟨s', hsu, hfu⟩ := h.2 u hu
    rw [hso] at huid
    rw [hsu] at huid
    rw [Option.some.inj huid] at hfu
    rw [hfo] at hfu
    simp at hfu
  · intro env data
    have h := processRequests_inv env data
    apply inter_eq_nil_of_forall_not
    intro x hx hx2
    rcases List.mem_map.mp hx with ⟨o, ho, rfl⟩
    rcases List.mem_map.mp hx2 with ⟨u, hu, huid⟩
    have h1 := h.1 o ho
    have h2 := h.2 u hu
    rw [huid] at h2
    rw [h1] at h2
    simp at h2
  · intro items data
    have h := processStock_inv items data
    apply inter_eq_nil_of_forall_not
    intro x hx hx2
    rcases List.mem_map.mp hx with ⟨o, ho, rfl⟩
    rcases List.mem_map.mp hx2 with ⟨u, hu, huid⟩
    have h1 := h.1 o ho
    have h2 := h.2 u hu
    rw [huid] at h2
    rw [h1] at h2
    simp at h2

/-! ## C4: unresolved-reference policy -/

/-- C4 counterexample: a request row whose item resolves (`"IT-9"`) but
whose machine reference (`"CraneX"`) fails to resolve is NOT retained with
the sentinel — it is skipped, excluded from both `toAdd` and `toUpdate`. -/
theorem c4_unresolved_machine_row_not_retained :
    resolveMachineId [{ id := "M-1", category := some "Crane" }] "CraneX"
      = "Unknown" ∧
    processRequests
      { machines := [{ id := "M-1", category := some "Crane" }],
        items := [{ id := "IT-9", name := some "Bolt" }],
        locations := [{ id := "L-1", name := "Warehouse A" }],
        genId := fun _ => "IMP-1" }
      [[("Item Code", some "IT-9"), ("Qty", some "12"),
        ("Location", some "Warehouse A"), ("Machine", some "CraneX")]]
      = ([], []) := by
  constructor
  · decide
  · decide

/-- C4 (corrected): an unresolved entity reference is always a per-row
decision, never a thrown fault, but the policy is: the machine resolver
substitutes the sentinel `"Unknown"` when neither id nor category matches,
and the issue-request pass then SKIPS any row whose machine reference
resolved to the sentinel, exactly as it skips rows whose item reference
resolved to `''`; BOM rows whose item reference did not resolve are likewise
excluded from both lists. -/
theorem c4_unresolved_reference_policy :
    (∀ (machines : List Machine) (val : String),
      machines.find? (fun m => m.id = jsTrim val) = none →
      machines.find? (fun m =>
        jsLower (jsOrO m.category "") = jsLower (jsTrim val)) = none →
      resolveMachineId machines val = "Unknown") ∧
    (∀ (env : HtEnv) (k : Nat) (row : List (String × Option String)),
      resolveMachineId env.machines
        (jsOrO (row.foldl (reqStep env.dateISO) {}).machineId
          (jsOrO (row.foldl (reqStep env.dateISO) {}).machineName "Unknown"))
        = "Unknown" →
      processRequestRow env k row = none) ∧
    (∀ (env : HtEnv) (k : Nat) (row : List (String × Option String)),
      htResolveItemId env.items
        (jsOrO (row.foldl (reqStep env.dateISO) {}).itemId "") = "" →
      processRequestRow env k row = none) ∧
    (∀ (env : AmEnv) (st : AmState) (obj : AmObj),
      oTruthy2 obj.itemId = false →
      (amClassify env .bom st obj).toAdd = st.toAdd ∧
      (amClassify env .bom st obj).toUpdate = st.toUpdate) := by
  refine ⟨?_, ?_, ?_, ?_⟩
  · intro machines val h1 h2
    unfold resolveMachineId
    by_cases hv : val = ""
    · rw [if_pos hv]
    · rw [if_neg hv]
      show (match machines.find? (fun m => m.id = jsTrim val) with
        | some m => m.id
        | none =>
          match machines.find? (fun m =>
              jsLower (jsOrO m.category "") = jsLower (jsTrim val)) with
          | some m => m.id
          | none => "Unknown") = "Unknown"
      rw [h1, h2]
  · intro env k row hm
    simp [processRequestRow, hm]
  · intro env k row hi
    simp [processRequestRow, hi]
  · intro env st obj hobj
    have hit : oTruthy2 (amDefaults AmTab.bom obj).itemId = false := hobj
    have hdrop : (decide ((AmTab.bom : AmTab) = AmTab.bom)
        && !oTruthy2 (amDefaults AmTab.bom obj).itemId) = true := by
      simp [hit]
    unfold amClassify
    cases hid : obj.id with
    | none => exact ⟨rfl, rfl⟩
    | some s =>
      show ((if s ≠ "" then
          (if (decide ((AmTab.bom : AmTab) = AmTab.bom)
                && !oTruthy2 (amDefaults .bom obj).itemId) = true
           then st else amPush env .bom st s (amDefaults .bom obj))
         else { st with skipped := st.skipped + 1 }) : AmState).toAdd = st.toAdd ∧
        ((if s ≠ "" then
          (if (decide ((AmTab.bom : AmTab) = AmTab.bom)
                && !oTruthy2 (amDefaults .bom obj).itemId) = true
           then st else amPush env .bom st s (amDefaults .bom obj))
         else { st with skipped := st.skipped + 1 }) : AmState).toUpdate = st.toUpdate
      by_cases hs : s ≠ ""
      · rw [if_pos hs, if_pos hdrop]
        exact ⟨rfl, rfl⟩
      · rw [if_neg hs]
        exact ⟨rfl, rfl⟩

/-- C4 witness: the skip policy applied at a concrete row whose machine
reference `"CraneX"` does not resolve. -/
theorem c4_unresolved_reference_policy_witness :
    resolveMachineId [{ id := "M-1", category := some "Crane" }]
      (jsOrO
        ([("Item Code", some "IT-9"), ("Qty", some "12"),
            ("Machine", some "CraneX")].foldl
          (reqStep (fun _ => "D")) {}).machineId
        (jsOrO
          ([("Item Code", some "IT-9"), ("Qty", some "12"),
              ("Machine", some "CraneX")].foldl
            (reqStep (fun _ => "D")) {}).machineName "Unknown"))
      = "Unknown" ∧
    processRequestRow
      { machines := [{ id := "M-1", category := some "Crane" }],
        items := [{ id := "IT-9", name := some "Bolt" }],
        dateISO := fun _ => "D" } 0
      [("Item Code", some "IT-9"), ("Qty", some "12"),
       ("Machine", some "CraneX")] = none :=
  ⟨by decide, c4_unresolved_reference_policy.2.1 _ 0 _ (by decide)⟩

/-! ## C5: the concrete import-row scenario -/

/-- C5 counterexample: the claimed row is NOT classified into `toAdd` — the
issue-request resolver matches only id/name/fullName, so `"PN-55"` (a part
number) fails to resolve and the row is skipped entirely. -/
theorem c5_row_not_added :
    htImportRequests
      { items := [{ id := "IT-9", name := some "Bolt", partNumber := some "PN-55" }],
        locations := [{ id := "L-1", name := "Warehouse A" }],
        nowISO := "2024-01-01T00:00:00.000Z", dateISO := fun _ => "",
        genId := fun _ => "IMP-1" }
      [[some "Item Code", some "Qty", some "Location"],
       [some "PN-55", some "12", some "Warehouse A"]]
      = some ([], []) ∧
    htResolveItemId
      [{ id := "IT-9", name := some "Bolt", partNumber := some "PN-55" }]
      "PN-55" = "" := by
  constructor
  · decide
  · decide

/-- C5 (corrected): on the given inputs the location reference and quantity
do normalize as claimed (`"L-1"`, `12`), and the AssetManagement-side
resolver would map `"PN-55"` to `"IT-9"`; but the issue-request path's
resolver (id/name/fullName only) returns `''` for `"PN-55"`, so the row is
excluded from both `toAdd` and `toUpdate`.  With a reference this path can
resolve (`"IT-9"`) and a resolvable machine reference, the row normalizes
to itemId `"IT-9"`, quantity `12`, locationId `"L-1"` and is classified
into `toAdd`. -/
theorem c5_scenario_behavior :
    htResolveId [{ id := "L-1", name := "Warehouse A" }] "Warehouse A"
      = "L-1" ∧
    jsNumber "12" = some 12 ∧
    amResolveItemId
      [{ id := "IT-9", name := some "Bolt", partNumber := some "PN-55" }]
      "PN-55" = some "IT-9" ∧
    htResolveItemId
      [{ id := "IT-9", name := some "Bolt", partNumber := some "PN-55" }]
      "PN-55" = "" ∧
    htImportRequests
      { items := [{ id := "IT-9", name := some "Bolt", partNumber := some "PN-55" }],
        locations := [{ id := "L-1", name := "Warehouse A" }],
        nowISO := "NOW", dateISO := fun _ => "", genId := fun _ => "IMP-1" }
      [[some "Item Code", some "Qty", some "Location"],
       [some "PN-55", some "12", some "Warehouse A"]]
      = some ([], []) ∧
    htImportRequests
      { machines := [{ id := "M-1", category := some "Crane" }],
        items := [{ id := "IT-9", name := some "Bolt", partNumber := some "PN-55" }],
        locations := [{ id := "L-1", name := "Warehouse A" }],
        nowISO := "NOW", dateISO := fun _ => "", genId := fun _ => "IMP-1" }
      [[some "Item Code", some "Qty", some "Location", some "Machine"],
       [some "IT-9", some "12", some "Warehouse A", some "Crane"]]
      = some ([{ id := "IMP-1", timestamp := "NOW", locationId := "L-1",
                 itemId := "IT-9", itemName := "Bolt", quantity := 12,
                 unit := "pcs", machineId := "M-1", machineName := "Crane",
                 status := "Completed", maintenancePlan := "" }], []) := by
  refine ⟨?_, ?_, ?_, ?_, ?_, ?_⟩ <;> decide

/-! ## C7: synthesized BOM ids -/

theorem mkBomId_ne_empty (ts rnd : Nat) : mkBomId ts rnd ≠ "" := by
  intro h
  have h2 := congrArg String.data h
  simp [mkBomId, String.data] at h2

/-- C7 counterexample: within one pass, two id-less BOM rows with the SAME
natural key (machineCategory `"Excavator"`, modelNo `"X100"`, itemId
`"IT-1"`) are assigned the ids `"BOM-1000-0"` and `"BOM-1000-1"` — distinct
ids for equal keys, so the id is not synthesized deterministically from the
natural key. -/
theorem c7_equal_keys_distinct_ids :
    ((processImport { items := [{ id := "IT-1" }] }
      [[some "machine", some "model", some "item", some "qty"],
       [some "Excavator", some "X100", some "IT-1", some "5"],
       [some "Excavator", some "X100", some "IT-1", some "5"]] .bom
      (fun _ => 1000) (fun k => k)).toAdd.map AmObj.id)
      = [some "BOM-1000-0", some "BOM-1000-1"] ∧
    (some "BOM-1000-0" : Option String) ≠ some "BOM-1000-1" := by
  constructor
  · decide
  · decide

/-- C7 (corrected): a BOM row lacking an explicit id whose natural key does
not match any existing record is assigned
`BOM-${Date.now()}-${floor(random()*10000)}` — an id built solely from the
timestamp and random draws of that row, independent of the natural key.
Idempotent re-import comes from the natural-key lookup on later passes, not
from determinism of the id. -/
theorem c7_id_from_oracle_draws (env : AmEnv) (genTs genRand : Nat → Nat)
    (k : Nat) (headers : List String) (row : List (Option String))
    (failed : List String)
    (hid : oTruthy (amNormalizedRow env .bom k headers row failed).1.id = false)
    (hmc : oTruthy (amNormalizedRow env .bom k headers row failed).1.machineCategory = true)
    (hit : oTruthy2 (amNormalizedRow env .bom k headers row failed).1.itemId = true)
    (hfind : env.bomRecords.find?
      (bomKeyMatch (amNormalizedRow env .bom k headers row failed).1) = none) :
    (amProcessRow env .bom genTs genRand k headers row failed).1.id
      = some (mkBomId (genTs k) (genRand k)) := by
  simp only [amProcessRow]
  simp only [hid, hmc, hit, hfind, Bool.not_false, Bool.and_true, Bool.true_and,
    Bool.or_eq_true, decide_True, reduceIte, if_true]
  rw [show (decide (AmTab.bom = AmTab.machines)) = false from rfl]
  simp only [Bool.false_and, Bool.false_eq_true, if_false]
  by_cases hmn : (amNormalizedRow env AmTab.bom k headers row failed).1.modelNo = none
  · rw [if_pos hmn]
    simp only [true_or, if_true]
  · rw [if_neg hmn]
    rfl

/-- C7 witness: the generic id-synthesis theorem applied at a concrete
id-less BOM row with draws `(1000, 7)`. -/
theorem c7_id_from_oracle_draws_witness :
    (oTruthy (amNormalizedRow { items := [{ id := "IT-1" }] } .bom 0
        ["machine", "model", "item", "qty"]
        [some "Excavator", some "X100", some "IT-1", some "5"] []).1.id
      = false) ∧
    ((amProcessRow { items := [{ id := "IT-1" }] } .bom
        (fun _ => 1000) (fun _ => 7) 0
        ["machine", "model", "item", "qty"]
        [some "Excavator", some "X100", some "IT-1", some "5"] []).1.id
      = some (mkBomId 1000 7)) :=
  ⟨by decide, c7_id_from_oracle_draws _ _ _ 0 _ _ _ (by decide) (by decide)
    (by decide) (by decide)⟩

/-! ## C8: numeric coercion of quantity cells -/

/-- C8 counterexample: in the issue-request pass, a row whose quantity cell
is non-numeric (`Number` yields `NaN`, `|| 0` yields `0`) is DROPPED by the
`if (itemId && qty)` gate, not processed with quantity 0 — the very same
row with quantity `"5"` is kept. -/
theorem c8_nonnumeric_request_row_dropped :
    jsNumber "abc" = none ∧
    processRequestRow
      { machines := [{ id := "M-1", category := some "Crane" }],
        items := [{ id := "IT-9", name := some "Bolt" }] } 0
      [("Item Code", some "IT-9"), ("Qty", some "abc"),
       ("Machine", some "Crane")]
      = none ∧
    (processRequestRow
      { machines := [{ id := "M-1", category := some "Crane" }],
        items := [{ id := "IT-9", name := some "Bolt" }] } 0
      [("Item Code", some "IT-9"), ("Qty", some "5"),
       ("Machine", some "Crane")]).isSome = true := by
  refine ⟨?_, ?_, ?_⟩ <;> decide

/-- C8 (corrected): the zero-coercion of non-numeric quantity cells is
per-path.  (i) In the `HistoryTable` requests pass, EVERY row whose
quantity coerces to 0 — which includes every non-numeric cell — is dropped
by the `if (itemId && qty)` gate, never processed with quantity 0.  (ii) In
the stock pass a non-numeric quantity cell leaves the row processed and the
added item's `stockQuantity` defaults to 0.  (iii) In the `AssetManagement`
BOM import `Number(cell) || 0` turns a non-numeric quantity cell into 0 and
the row is still classified (here into `toAdd`). -/
theorem c8_numeric_coercion_policy :
    (∀ (env : HtEnv) (k : Nat) (row : List (String × Option String)),
      numOr0O (row.foldl (reqStep env.dateISO) {}).quantity = 0 →
      processRequestRow env k row = none) ∧
    processStock [] [[("id", some "X-1"), ("qty", some "abc")]]
      = ([{ id := "X-1", name := "New Item", stockQuantity := 0,
            unit := "pcs", category := "General" }], []) ∧
    ((processImport { items := [{ id := "IT-1" }] }
        [[some "id", some "qty", some "item"],
         [some "B7", some "abc", some "IT-1"]] .bom
        (fun _ => 0) (fun _ => 0)).toAdd.map
      (fun o => (o.id, o.quantity)))
      = [(some "B7", some (0 : Int))] := by
  refine ⟨?_, ?_, ?_⟩
  · intro env k row h
    simp only [processRequestRow, h]
    simp
  · decide
  · decide

/-- C8 witness: the gate lemma applied at a concrete row whose quantity
cell reads `"abc"`. -/
theorem c8_numeric_coercion_policy_witness :
    processRequestRow {} 0
      [("itemid", some "IT-9"), ("qty", some "abc")] = none :=
  c8_numeric_coercion_policy.1 {} 0
    [("itemid", some "IT-9"), ("qty", some "abc")] (by decide)

/-! ## C3: two-pass BOM natural-key dedup -/

theorem c3_pass1_state (ts rnd : Nat) :
    processImport { items := [{ id := "IT-1" }] }
      [[some "machine", some "model", some "item", some "qty"],
       [some "Excavator", some "X100", some "IT-1", some "5"]] .bom
      (fun _ => ts) (fun _ => rnd)
      = { toAdd := [{ sortOrder := some 0, id := some (mkBomId ts rnd),
                      modelNo := some "X100",
                      machineCategory := some "Excavator",
                      itemId := some (some "IT-1"), quantity := some 5 }],
          toUpdate := [], skipped := 0, failed := [] } := by
  have hnorm : ∀ (bs : List BOM), amNormalizedRow
      { items := [{ id := "IT-1" }], bomRecords := bs } .bom 0
      ["machine", "model", "item", "qty"]
      [some "Excavator", some "X100", some "IT-1", some "5"] []
      = ({ sortOrder := some 0, modelNo := some "X100",
           machineCategory := some "Excavator",
           itemId := some (some "IT-1"), quantity := some 5 }, []) :=
    fun bs => rfl
  have hstep : processImport { items := [{ id := "IT-1" }] }
      [[some "machine", some "model", some "item", some "qty"],
       [some "Excavator", some "X100", some "IT-1", some "5"]] .bom
      (fun _ => ts) (fun _ => rnd)
      = amClassify { items := [{ id := "IT-1" }] } .bom
          { ({} : AmState) with
            failed := (amProcessRow { items := [{ id := "IT-1" }] } .bom
              (fun _ => ts) (fun _ => rnd) 0
              ["machine", "model", "item", "qty"]
              [some "Excavator", some "X100", some "IT-1", some "5"] []).2 }
          (amProcessRow { items := [{ id := "IT-1" }] } .bom
            (fun _ => ts) (fun _ => rnd) 0
            ["machine", "model", "item", "qty"]
            [some "Excavator", some "X100", some "IT-1", some "5"] []).1 := rfl
  rw [hstep]
  have hproc : amProcessRow { items := [{ id := "IT-1" }] } .bom
      (fun _ => ts) (fun _ => rnd) 0
      ["machine", "model", "item", "qty"]
      [some "Excavator", some "X100", some "IT-1", some "5"] []
      = ({ sortOrder := some 0, id := some (mkBomId ts rnd),
           modelNo := some "X100", machineCategory := some "Excavator",
           itemId := some (some "IT-1"), quantity := some 5 }, []) := by
    simp only [amProcessRow, hnorm]
    rw [show (decide (AmTab.bom = AmTab.machines)) = false from rfl]
    simp only [Bool.false_and, Bool.false_eq_true, if_false]
    norm_num [oTruthy, oTruthy2, bomKeyMatch, List.find?]
    simp only [eq_false (show ¬("IT-1" = "") from by decide), if_false]
    simp [sTruthy]
  rw [hproc]
  simp only [amClassify]
  rw [if_pos (mkBomId_ne_empty ts rnd)]
  norm_num [amDefaults, oTruthy2, amPush, amFindExisting, jsOrO]
  simp

theorem c3_pass2_state (ts1 rnd1 ts2 rnd2 : Nat) :
    processImport
      { items := [{ id := "IT-1" }],
        bomRecords := [{ id := mkBomId ts1 rnd1,
                         machineCategory := "Excavator",
                         modelNo := some "X100", itemId := "IT-1",
                         quantity := some 5, sortOrder := some 0 }] }
      [[some "machine", some "model", some "item", some "qty"],
       [some "Excavator", some "X100", some "IT-1", some "5"]] .bom
      (fun _ => ts2) (fun _ => rnd2)
      = { toAdd := [],
          toUpdate := [{ sortOrder := some 0, id := some (mkBomId ts1 rnd1),
                         modelNo := some "X100",
                         machineCategory := some "Excavator",
                         itemId := some (some "IT-1"), quantity := some 5 }],
          skipped := 0, failed := [] } := by
  have hnorm : ∀ (bs : List BOM), amNormalizedRow
      { items := [{ id := "IT-1" }], bomRecords := bs } .bom 0
      ["machine", "model", "item", "qty"]
      [some "Excavator", some "X100", some "IT-1", some "5"] []
      = ({ sortOrder := some 0, modelNo := some "X100",
           machineCategory := some "Excavator",
           itemId := some (some "IT-1"), quantity := some 5 }, []) :=
    fun bs => rfl
  have hstep : processImport
      { items := [{ id := "IT-1" }],
        bomRecords := [{ id := mkBomId ts1 rnd1,
                         machineCategory := "Excavator",
                         modelNo := some "X100", itemId := "IT-1",
                         quantity := some 5, sortOrder := some 0 }] }
      [[some "machine", some "model", some "item", some "qty"],
       [some "Excavator", some "X100", some "IT-1", some "5"]] .bom
      (fun _ => ts2) (fun _ => rnd2)
      = amClassify
          { items := [{ id := "IT-1" }],
            bomRecords := [{ id := mkBomId ts1 rnd1,
                             machineCategory := "Excavator",
                             modelNo := some "X100", itemId := "IT-1",
                             quantity := some 5, sortOrder := some 0 }] } .bom
          { ({} : AmState) with
            failed := (amProcessRow
              { items := [{ id := "IT-1" }],
                bomRecords := [{ id := mkBomId ts1 rnd1,
                                 machineCategory := "Excavator",
                                 modelNo := some "X100", itemId := "IT-1",
                                 quantity := some 5, sortOrder := some 0 }] } .bom
              (fun _ => ts2) (fun _ => rnd2) 0
              ["machine", "model", "item", "qty"]
              [some "Excavator", some "X100", some "IT-1", some "5"] []).2 }
          (amProcessRow
            { items := [{ id := "IT-1" }],
              bomRecords := [{ id := mkBomId ts1 rnd1,
                               machineCategory := "Excavator",
                               modelNo := some "X100", itemId := "IT-1",
                               quantity := some 5, sortOrder := some 0 }] } .bom
            (fun _ => ts2) (fun _ => rnd2) 0
            ["machine", "model", "item", "qty"]
            [some "Excavator", some "X100", some "IT-1", some "5"] []).1 := rfl
  rw [hstep]
  have hproc : amProcessRow
      { items := [{ id := "IT-1" }],
        bomRecords := [{ id := mkBomId ts1 rnd1,
                         machineCategory := "Excavator",
                         modelNo := some "X100", itemId := "IT-1",
                         quantity := some 5, sortOrder := some 0 }] } .bom
      (fun _ => ts2) (fun _ => rnd2) 0
      ["machine", "model", "item", "qty"]
      [some "Excavator", some "X100", some "IT-1", some "5"] []
      = ({ sortOrder := some 0, id := some (mkBomId ts1 rnd1),
           modelNo := some "X100", machineCategory := some "Excavator",
           itemId := some (some "IT-1"), quantity := some 5 }, []) := by
    simp only [amProcessRow, hnorm]
    rw [show (decide (AmTab.bom = AmTab.machines)) = false from rfl]
    simp only [Bool.false_and, Bool.false_eq_true, if_false]
    norm_num [oTruthy, oTruthy2, bomKeyMatch, List.find?, jsOrO]
    simp only [eq_false (show ¬("IT-1" = "") from by decide), if_false]
    simp [sTruthy]
  rw [hproc]
  simp only [amClassify]
  rw [if_pos (mkBomId_ne_empty ts1 rnd1)]
  norm_num [amDefaults, oTruthy2, amPush, amFindExisting, jsOrO,
    List.find?, bomToAm, mergeAm]
  simp [Option.or]

/-- C3 counterexample: an explicit spreadsheet id bypasses the natural-key
dedup entirely — `bomRecords` already holds the triple (`"Excavator"`,
`"X100"`, `"IT-1"`) under id `"B1"`, yet a second pass carrying the same
triple with explicit id `"B2"` is pushed to `toAdd` as a second record
(and `"B1"` is not updated), so re-import with a differing explicit id
duplicates instead of updating. -/
theorem c3_explicit_id_bypasses_dedup :
    (processImport
      { items := [{ id := "IT-1" }],
        bomRecords := [{ id := "B1", machineCategory := "Excavator",
                         modelNo := some "X100", itemId := "IT-1" }] }
      [[some "machine", some "model", some "item", some "id"],
       [some "Excavator", some "X100", some "IT-1", some "B2"]] .bom
      (fun _ => 1000) (fun _ => 7)).toAdd.map AmObj.id = [some "B2"] ∧
    (processImport
      { items := [{ id := "IT-1" }],
        bomRecords := [{ id := "B1", machineCategory := "Excavator",
                         modelNo := some "X100", itemId := "IT-1" }] }
      [[some "machine", some "model", some "item", some "id"],
       [some "Excavator", some "X100", some "IT-1", some "B2"]] .bom
      (fun _ => 1000) (fun _ => 7)).toUpdate = [] := by
  refine ⟨?_, ?_⟩ <;> decide

/-- C3 (corrected): the two-pass idempotence holds for BOM rows WITHOUT an
explicit id. Whatever timestamps and random draws the two passes see, pass 1
adds the row under the generated id and pass 2 — run against a collection
holding pass 1's record — adds nothing and classifies the same row into
`toUpdate` under pass 1's id. -/
theorem c3_idless_natural_key_dedup (ts1 rnd1 ts2 rnd2 : Nat) :
    (processImport { items := [{ id := "IT-1" }] }
      [[some "machine", some "model", some "item", some "qty"],
       [some "Excavator", some "X100", some "IT-1", some "5"]] .bom
      (fun _ => ts1) (fun _ => rnd1)).toAdd.map AmObj.id
      = [some (mkBomId ts1 rnd1)]
    ∧ (processImport { items := [{ id := "IT-1" }] }
      [[some "machine", some "model", some "item", some "qty"],
       [some "Excavator", some "X100", some "IT-1", some "5"]] .bom
      (fun _ => ts1) (fun _ => rnd1)).toUpdate = []
    ∧ (processImport
      { items := [{ id := "IT-1" }],
        bomRecords := [{ id := mkBomId ts1 rnd1,
                         machineCategory := "Excavator",
                         modelNo := some "X100", itemId := "IT-1",
                         quantity := some 5, sortOrder := some 0 }] }
      [[some "machine", some "model", some "item", some "qty"],
       [some "Excavator", some "X100", some "IT-1", some "5"]] .bom
      (fun _ => ts2) (fun _ => rnd2)).toAdd = []
    ∧ (processImport
      { items := [{ id := "IT-1" }],
        bomRecords := [{ id := mkBomId ts1 rnd1,
                         machineCategory := "Excavator",
                         modelNo := some "X100", itemId := "IT-1",
                         quantity := some 5, sortOrder := some 0 }] }
      [[some "machine", some "model", some "item", some "qty"],
       [some "Excavator", some "X100", some "IT-1", some "5"]] .bom
      (fun _ => ts2) (fun _ => rnd2)).toUpdate.map AmObj.id
      = [some (mkBomId ts1 rnd1)] := by
  rw [c3_pass1_state ts1 rnd1, c3_pass2_state ts1 rnd1 ts2 rnd2]
  exact ⟨rfl, rfl, rfl, rfl⟩

